import Mathlib

/-!
Shallow embedding of the WSIW candidate discovery, provider-matching and
weighted selection pipeline (`src/components/StreamingSlotMachine.tsx`,
`src/lib/tmdb-secure.ts` and the legacy `src/lib/tmdb.ts`).

External API calls (the TMDB metadata provider) are modelled as oracle
functions passed in as parameters; `Math.random()` draws are modelled as
explicit draw / index parameters.  JavaScript numbers used as counters are
modelled as `Nat`/`Int`, record maps as functions.  The weighted-selection
weights are integers, and the running remainder of the cumulative draw loop
crosses zero at the same item for a real draw `x` as for its ceiling, so
`Math.random() * totalWeight` draws are modelled by their integer ceilings.
-/

set_option autoImplicit false

/-- Content kind discriminant (`'movie' | 'tv'`; the source discriminates by
`'title' in item`). -/
inductive CType where
  | movie
  | tv
deriving DecidableEq, Repr

/-- `enum ErrorType` from StreamingSlotMachine.tsx. -/
inductive ErrorType where
  | API_FAILURE
  | NO_CONTENT
  | NETWORK_ERROR
  | PROVIDER_ERROR
  | CONTENT_DETAILS_ERROR
deriving DecidableEq, Repr

/-- `interface AppError` from StreamingSlotMachine.tsx. -/
structure AppError where
  etype : ErrorType
  message : String
  details : Option String
deriving DecidableEq, Repr

/-- One entry of a streaming service in the `streamingServices` constant. -/
structure StreamingService where
  name : String
  color : String
deriving DecidableEq, Repr

/-- The `streamingServices` constant (StreamingSlotMachine.tsx lines 97-104). -/
def streamingServices : List StreamingService :=
  [⟨"Netflix", "#E50914"⟩,
   ⟨"Disney+", "#0063e5"⟩,
   ⟨"Hulu", "#1CE783"⟩,
   ⟨"Prime Video", "#00A8E1"⟩,
   ⟨"HBO Max", "#5822b4"⟩,
   ⟨"Apple TV+", "#000000"⟩]

/-- ASCII lower-casing of one character, the behaviour of
`String.prototype.toLowerCase` on the provider-name alphabet. -/
def lowerChar (c : Char) : Char :=
  if 'A' ≤ c ∧ c ≤ 'Z' then Char.ofNat (c.toNat + 32) else c

/-- Whitespace as stripped by `String.prototype.trim`. -/
def isSpaceChar (c : Char) : Bool := c = ' ' ∨ c = '\t' ∨ c = '\n' ∨ c = '\r'

/-- `name.toLowerCase()`. -/
def jsToLowerCase (s : String) : String := ⟨s.data.map lowerChar⟩

/-- `name.trim()`. -/
def jsTrim (s : String) : String :=
  ⟨((s.data.dropWhile isSpaceChar).reverse.dropWhile isSpaceChar).reverse⟩

namespace TmdbSecure

/-- The alias table of `normalizeProviderName` in `tmdb-secure.ts`
(keys are lower-cased). -/
def normalizeLookup (k : String) : Option String :=
  if k = "hbo max" then some "HBO Max"
  else if k = "max" then some "HBO Max"
  else if k = "disney plus" then some "Disney+"
  else if k = "disney+" then some "Disney+"
  else if k = "prime video" then some "Prime Video"
  else if k = "amazon prime" then some "Prime Video"
  else if k = "apple tv" then some "Apple TV+"
  else if k = "apple tv+" then some "Apple TV+"
  else if k = "netflix" then some "Netflix"
  else if k = "hulu" then some "Hulu"
  else none

/-- `normalizeProviderName` from `tmdb-secure.ts` (the variant imported by
StreamingSlotMachine.tsx): lower-case and trim the name, then look it up in
the alias table, falling back to the original name. -/
def normalizeProviderName (name : String) : String :=
  match normalizeLookup (jsTrim (jsToLowerCase name)) with
  | some canonical => canonical
  | none => name

end TmdbSecure

namespace Tmdb

/-- The alias table of `normalizeProviderName` in the legacy `tmdb.ts`
(exact-match keys). -/
def normalizeLookup (k : String) : Option String :=
  if k = "Amazon Prime Video" then some "Prime Video"
  else if k = "Amazon Video" then some "Prime Video"
  else if k = "Amazon" then some "Prime Video"
  else if k = "Amazon Prime" then some "Prime Video"
  else if k = "Netflix Basic" then some "Netflix"
  else if k = "Netflix Premium" then some "Netflix"
  else if k = "Netflix Standard" then some "Netflix"
  else if k = "Disney Plus" then some "Disney+"
  else if k = "Disney+" then some "Disney+"
  else if k = "Hulu" then some "Hulu"
  else if k = "HBO Max" then some "HBO Max"
  else if k = "HBO" then some "HBO Max"
  else if k = "Max" then some "HBO Max"
  else if k = "Apple TV Plus" then some "Apple TV+"
  else if k = "Apple TV+" then some "Apple TV+"
  else if k = "Apple TV" then some "Apple TV+"
  else none

/-- `normalizeProviderName` from the legacy `tmdb.ts`: exact-match lookup in
the alias table, falling back to the original name. -/
def normalizeProviderName (providerName : String) : String :=
  match normalizeLookup providerName with
  | some canonical => canonical
  | none => providerName

end Tmdb

/-- One provider entry of a TMDB watch-providers response (only the
`provider_name` field is consumed). -/
structure ProviderEntry where
  provider_name : String
deriving DecidableEq, Repr

/-- The region-scoped offer map returned by `getProviders`, partitioned into
offer kinds. -/
structure WatchProviders where
  flatrate : List ProviderEntry
  free : List ProviderEntry
  ads : List ProviderEntry
  buy : List ProviderEntry
  rent : List ProviderEntry
deriving DecidableEq, Repr

/-- Worker of `uniqueFirst`: keep each element whose value was not seen
before, in order. -/
def uniqueFirstAux (seen : List String) : List String → List String
  | [] => []
  | a :: rest =>
    if seen.contains a then uniqueFirstAux seen rest
    else a :: uniqueFirstAux (a :: seen) rest

/-- First-occurrence deduplication, the semantics of
`[...new Set(array)]` in JavaScript. -/
def uniqueFirst (l : List String) : List String := uniqueFirstAux [] l

/-- `formatProviders` (StreamingSlotMachine.tsx lines 387-406): a `null`
offer map yields no providers; otherwise the flatrate, free, ads, buy and
rent entries are pooled, their names normalized and deduplicated, and only
names present in `streamingServices` are kept. -/
def formatProviders (providers : Option WatchProviders) : List String :=
  match providers with
  | none => []
  | some p =>
    let allProviders := p.flatrate ++ p.free ++ p.ads ++ p.buy ++ p.rent
    let uniqueProviders :=
      uniqueFirst (allProviders.map (fun e => TmdbSecure.normalizeProviderName e.provider_name))
    uniqueProviders.filter (fun provider =>
      streamingServices.any (fun s => s.name = provider))

/-- A raw title as far as the selection pipeline consumes it: the stable
numeric identifier and the content kind. -/
structure Item where
  id : ℕ
  ctype : CType
deriving DecidableEq, Repr

/-- `interface ContentWithProviders`: a title annotated by
`findContentWithMatchingProviders`.  `prefetchedRating = none` models the
field being left `undefined`; `some none` models an explicit `null`. -/
structure CWP where
  id : ℕ
  ctype : CType
  actualProviders : List String
  prefetchedRating : Option (Option String)
  passesRatingFilter : Option Bool
deriving DecidableEq, Repr

/-- View a `ContentWithProviders` record as the underlying title. -/
def CWP.toItem (c : CWP) : Item := ⟨c.id, c.ctype⟩

/-- `item.actualProviders[0] || 'Unknown'` in `selectBalancedContent`. -/
def primaryProvider (item : CWP) : String := item.actualProviders.headD "Unknown"

/-- `Math.max` on two integers (executable form; equal to `max`). -/
def jsMax (a b : ℤ) : ℤ := if a ≤ b then b else a

/-- `Math.max(1, 10 - usageCount)` — the selection weight of an item given
the per-service usage counters.  The weights are integers. -/
def providerWeight (usage : String → ℕ) (item : CWP) : ℤ :=
  jsMax 1 (10 - (usage (primaryProvider item) : ℤ))

/-- The cumulative-weight draw loop of `selectBalancedContent`: subtract each
item's weight from the draw and stop at the first item where the remainder
is `≤ 0`.  Returns `none` when the draw exceeds the total weight (the source
then falls back to a uniform random index). -/
def cumulativePick (usage : String → ℕ) : List CWP → ℤ → Option CWP
  | [], _ => none
  | item :: rest, x =>
    if x - providerWeight usage item ≤ 0 then some item
    else cumulativePick usage rest (x - providerWeight usage item)

/-- Functional update of the per-service usage counters:
`{...prev, [p]: (prev[p] || 0) + 1}`. -/
def bumpUsage (u : String → ℕ) (p : String) : String → ℕ :=
  fun q => if q = p then u q + 1 else u q

/-- `selectBalancedContent` (StreamingSlotMachine.tsx lines 180-236).

`usage0` is the render-time value of `providerUsageCount` that the weight
computation reads (a stale closure capture, constant during a spin);
`usageQ` is the queued value that the functional `setProviderUsageCount`
updates accumulate into.  `x` is the `Math.random() * totalWeight` draw and
`j` the extra random index of the post-loop fallback.  Returns `none` for an
empty list (the source throws), and the one-element shortcut returns the
single item without touching the usage counters. -/
def selectBalancedContent (usage0 usageQ : String → ℕ) (contentList : List CWP)
    (x : ℤ) (j : ℕ) : Option (CWP × (String → ℕ)) :=
  match contentList with
  | [] => none
  | [single] => some (single, usageQ)
  | a :: b :: rest =>
    let l := a :: b :: rest
    match cumulativePick usage0 l x with
    | some item => some (item, bumpUsage usageQ (primaryProvider item))
    | none =>
      let fallback := l.getD (j % l.length) a
      some (fallback, bumpUsage usageQ (primaryProvider fallback))

/-- Total weight of a pool, `contentWithWeights.reduce((sum, item) => sum + item.weight, 0)`. -/
def cumWeight (usage : String → ℕ) (l : List CWP) : ℤ :=
  (l.map (providerWeight usage)).sum

/-- Accumulator state of `findContentWithMatchingProviders`: the result list,
the ids already pushed, and the count of rating-passing matches (for the
`PROVIDER_MATCH_TARGET` early stop). -/
structure FilterState where
  out : List CWP
  seenIds : List ℕ
  passingMatches : ℕ

/-- `MAX_PROVIDER_LOOKUPS` (StreamingSlotMachine.tsx line 518). -/
def MAX_PROVIDER_LOOKUPS : ℕ := 24

/-- `PROVIDER_MATCH_TARGET` (StreamingSlotMachine.tsx line 519). -/
def PROVIDER_MATCH_TARGET : ℕ := 8

/-- Processing of one inspected title inside
`findContentWithMatchingProviders`: skip once the match target is reached or
the id was already pushed; fetch the offer map (a throw, modelled by the
oracle returning `none`, is recovered by skipping the title); keep the title
only when the normalized offered providers intersect the user's selection;
when a maturity filter is active prefetch the rating and record a
pass/fail flag instead of dropping failing titles. -/
def processInspectedItem (selectedServices selectedRatings : List String)
    (provOracle : ℕ → Option WatchProviders) (ratingOracle : ℕ → Option String)
    (st : FilterState) (item : Item) : FilterState :=
  if st.passingMatches ≥ PROVIDER_MATCH_TARGET then st
  else if st.seenIds.contains item.id then st
  else
    match provOracle item.id with
    | none => st
    | some providers =>
      let availableProviders := formatProviders (some providers)
      let matchingProviders := availableProviders.filter
        (fun provider => selectedServices.contains provider)
      if matchingProviders = [] then st
      else
        let rating : Option (Option String) :=
          if selectedRatings = [] then none else some (ratingOracle item.id)
        let passesRating : Bool :=
          if selectedRatings = [] then true
          else match ratingOracle item.id with
            | none => false
            | some r => selectedRatings.contains r
        { out := st.out ++
            [⟨item.id, item.ctype, matchingProviders, rating, some passesRating⟩],
          seenIds := item.id :: st.seenIds,
          passingMatches := st.passingMatches + (if passesRating then 1 else 0) }

/-- `findContentWithMatchingProviders` (StreamingSlotMachine.tsx lines
550-617).  In the source the per-title lookups run under a 4-worker
cooperative pool; every push is guarded by the same per-title checks in any
schedule, and this embedding fixes the sequential schedule. -/
def findContentWithMatchingProviders (selectedServices selectedRatings : List String)
    (provOracle : ℕ → Option WatchProviders) (ratingOracle : ℕ → Option String)
    (allContent : List Item) : List CWP :=
  ((allContent.take MAX_PROVIDER_LOOKUPS).foldl
    (processInspectedItem selectedServices selectedRatings provOracle ratingOracle)
    ⟨[], [], 0⟩).out

/-- The mutable locals of `chooseContent`: the (locally cleared) snapshot of
the served ids, the ids drawn this spin, the reset flag, and the queued
per-service usage counters. -/
structure ChooseState where
  usedIds : List ℕ
  seen : List ℕ
  hasReset : Bool
  usageQ : String → ℕ

/-- A successful `chooseContent` result: the chosen title with the providers
and rating of its formatted content item. -/
structure Found where
  selectedId : ℕ
  ctype : CType
  providers : List String
  rating : Option String
deriving DecidableEq, Repr

/-- Outcome of one iteration of the 16-attempt loop in `chooseContent`. -/
inductive StepResult where
  | cont (st : ChooseState)
  | done (f : Found) (st : ChooseState)
  | halt (st : ChooseState)

/-- Oracles and random draws consumed by one `chooseContent` call.
`formatFails id = true` models `formatContentItem` throwing for that title;
`ratingOracle` models `getContentRating` (which recovers its own errors by
returning `null`); `draws`/`fidx` are the `Math.random()` values consumed at
attempt `n`. -/
structure ChooseEnv where
  selectedRatings : List String
  provOracle : ℕ → Option WatchProviders
  ratingOracle : ℕ → Option String
  formatFails : ℕ → Bool
  draws : ℕ → ℤ
  fidx : ℕ → ℕ

/-- The state after `resetUsedContent()` plus `usedIdsSnapshot.clear()`:
snapshot emptied, queued usage counters reset, reset flag raised; the
ids already drawn this spin are kept. -/
def resetChooseState (st : ChooseState) : ChooseState :=
  { st with usedIds := [], usageQ := fun _ => 0, hasReset := true }

/-- The rating of the formatted content item: the prefetched hint when the
field was set (`ratingHint !== undefined`), else a fresh
`getContentRating` lookup. -/
def effectiveRating (env : ChooseEnv) (cand : Item) (hint : Option (Option String)) :
    Option String :=
  match hint with
  | some r => r
  | none => env.ratingOracle cand.id

/-- Whether a formatted rating passes the user's maturity selection
(`candidateContent.rating && selectedRatings.includes(...)`). -/
def ratingAccepted (env : ChooseEnv) (rating : Option String) : Bool :=
  match rating with
  | none => false
  | some r => env.selectedRatings.contains r

/-- Evaluation of a drawn candidate (the tail of one loop iteration of
`chooseContent`): a `formatContentItem` throw skips the candidate; with the
rating constraint enforced, a missing or non-selected rating skips the
candidate; otherwise the candidate is accepted. -/
def evalCandidate (env : ChooseEnv) (enforceRating : Bool) (cand : Item)
    (provs : List String) (hint : Option (Option String)) (st : ChooseState) : StepResult :=
  if env.formatFails cand.id then .cont st
  else if enforceRating && !(ratingAccepted env (effectiveRating env cand hint)) then .cont st
  else .done ⟨cand.id, cand.ctype, provs, effectiveRating env cand hint⟩ st

/-- Result of the provider-matched-pool phase of one loop iteration. -/
inductive PoolPhase where
  | resetContinue
  | noCandidate
  | picked (cand : Item) (provs : List String) (hint : Option (Option String))
      (st : ChooseState)

/-- The `providerPool` filter of one loop iteration: drop served ids, ids
already drawn this spin and — when the rating is enforced — titles whose
passes-rating flag is `false`. -/
def eligiblePool (st : ChooseState) (enforceRating : Bool) (cwp : List CWP) : List CWP :=
  cwp.filter (fun item =>
    !(st.usedIds.contains item.id) && !(st.seen.contains item.id) &&
      !(enforceRating && item.passesRatingFilter == some false))

/-- The `prioritizedPool`: when the rating is not enforced, the stable sort
by the comparator `aScore - bScore` moves flagged-failing titles last. -/
def prioritizedPool (enforceRating : Bool) (pool : List CWP) : List CWP :=
  if enforceRating then pool
  else pool.filter (fun item => !(item.passesRatingFilter == some false)) ++
    pool.filter (fun item => item.passesRatingFilter == some false)

/-- The provider-matched-pool phase of one loop iteration of
`chooseContent`: filter out served / already-drawn ids (and, when the rating
is enforced, titles flagged as failing it); on an exhausted pool reset the
served set once if the matched list is large enough; otherwise draw one item
with `selectBalancedContent` (sorting flagged-failing items last when the
rating is not enforced — the stable-sort comparator `aScore - bScore`). -/
def poolPhase (env : ChooseEnv) (usage0 : String → ℕ) (cwp : List CWP)
    (enforceRating : Bool) (n : ℕ) (st : ChooseState) : PoolPhase :=
  if cwp.isEmpty then .noCandidate
  else if (eligiblePool st enforceRating cwp).isEmpty then
    if !st.hasReset && decide (cwp.length > 10) then .resetContinue else .noCandidate
  else
    match selectBalancedContent usage0 st.usageQ
      (prioritizedPool enforceRating (eligiblePool st enforceRating cwp))
      (env.draws n) (env.fidx n) with
    | none => .noCandidate
    | some (chosen, usageQ') =>
      .picked chosen.toItem chosen.actualProviders chosen.prefetchedRating
        { st with seen := chosen.id :: st.seen, usageQ := usageQ' }

/-- The `fallbackPool` of one loop iteration: the raw pool minus served ids
and ids already drawn this spin. -/
def eligibleFallbackPool (st : ChooseState) (allContent : List Item) : List Item :=
  allContent.filter (fun item =>
    !(st.usedIds.contains item.id) && !(st.seen.contains item.id))

/-- `formatProviders(await getProviders(...))` for a fallback candidate; a
thrown lookup (oracle `none`) is caught and yields no providers. -/
def fallbackProviders (env : ChooseEnv) (cand : Item) : List String :=
  match env.provOracle cand.id with
  | none => []
  | some p => formatProviders (some p)

/-- The fallback branch of one loop iteration on a non-empty fallback pool:
pick the random index, record it as drawn, fetch its providers directly and
evaluate it. -/
def fallbackStep (env : ChooseEnv) (enforceRating : Bool) (n : ℕ) (st : ChooseState)
    (pool : List Item) (a : Item) : StepResult :=
  evalCandidate env enforceRating (pool.getD (env.fidx n % pool.length) a)
    (fallbackProviders env (pool.getD (env.fidx n % pool.length) a)) none
    { st with seen := (pool.getD (env.fidx n % pool.length) a).id :: st.seen }

/-- One iteration of the 16-attempt loop of `chooseContent`
(StreamingSlotMachine.tsx lines 255-352), with `n` the attempt's random
stream index. -/
def attemptStep (env : ChooseEnv) (usage0 : String → ℕ) (allContent : List Item)
    (cwp : List CWP) (enforceRating : Bool) (n : ℕ) (st : ChooseState) : StepResult :=
  match poolPhase env usage0 cwp enforceRating n st with
  | .resetContinue => .cont (resetChooseState st)
  | .picked cand provs hint st' => evalCandidate env enforceRating cand provs hint st'
  | .noCandidate =>
    match eligibleFallbackPool st allContent with
    | [] =>
      if !st.hasReset then .cont (resetChooseState st) else .halt st
    | a :: rest => fallbackStep env enforceRating n st (a :: rest) a

/-- The bounded retry loop of `chooseContent`, fuelled by the remaining
attempt budget; additionally returns the number of iterations executed. -/
def chooseLoop (env : ChooseEnv) (usage0 : String → ℕ) (allContent : List Item)
    (cwp : List CWP) (enforceRating : Bool) :
    ℕ → ChooseState → Option Found × ChooseState × ℕ
  | 0, st => (none, st, 0)
  | fuel + 1, st =>
    match attemptStep env usage0 allContent cwp enforceRating (fuel + 1) st with
    | .done f st' => (some f, st', 1)
    | .halt st' => (none, st', 1)
    | .cont st' =>
      let r := chooseLoop env usage0 allContent cwp enforceRating fuel st'
      (r.1, r.2.1, r.2.2 + 1)

/-- `chooseContent` (StreamingSlotMachine.tsx lines 238-355): the rating is
enforced only when requested and some ratings are selected; at most 16
attempts are made. -/
def chooseContent (env : ChooseEnv) (usage0 : String → ℕ) (st0 : ChooseState)
    (allContent : List Item) (cwp : List CWP) (enforceRatingOpt : Bool) :
    Option Found × ChooseState × ℕ :=
  chooseLoop env usage0 allContent cwp
    (enforceRatingOpt && !env.selectedRatings.isEmpty) 16 st0

/-- The alternate content type (`contentType === 'movie' ? 'tv' : 'movie'`). -/
def altType : CType → CType
  | .movie => .tv
  | .tv => .movie

/-- Push one title onto a pool unless its id is already present
(`if (!allContent.some(c => c.id === item.id)) allContent.push(item)`). -/
def pushNewItem (acc : List Item) (it : Item) : List Item :=
  if acc.any (fun c => c.id == it.id) then acc else acc ++ [it]

/-- Push a list of fetched titles onto a pool, deduplicating by id. -/
def pushNewItems (acc : List Item) (items : List Item) : List Item :=
  items.foldl pushNewItem acc

/-- Like `pushNewItems` but also counts how many titles were actually added
(the per-provider `providerContentCount`). -/
def pushNewCount (acc : List Item) (items : List Item) : List Item × ℕ :=
  items.foldl
    (fun p it => if p.1.any (fun c => c.id == it.id) then p else (p.1 ++ [it], p.2 + 1))
    (acc, 0)

/-- The `createError(ErrorType.API_FAILURE, ...)` thrown by
`fetchContentWithStrategies` with the last underlying error as detail. -/
def apiFailureError (detail : String) : AppError :=
  ⟨.API_FAILURE,
   "Unable to fetch content from the movie database. Please check your internet connection and try again.",
   some detail⟩

/-- Metadata-provider oracles consumed by `fetchContentWithStrategies`; each
call may fail with an underlying error message.  `pagePick n` models the
`Math.random()` used for the page of strategy-1 attempt `n`, and `shuffle`
the final `sort(() => Math.random() - 0.5)`. -/
structure StrategyEnv where
  selectedContentTypes : List CType
  getContentByProvider : CType → ℕ → ℕ → Except String (List Item)
  getPopularByProvider : ℕ → ℕ → Except String (List Item)
  getRandomContent : CType → ℕ → Except String (List Item)
  getTrendingContent : CType → Except String (List Item)
  pagePick : ℕ → ℕ
  shuffle : List Item → List Item

/-- Strategy 1 of `fetchContentWithStrategies`: up to 3 attempts against the
provider + content type on a random page (1-5), stopping once the pool has
20 titles; each failure is recorded and the loop continues. -/
def strategyOneLoop (env : StrategyEnv) (ctype : CType) (pid : ℕ) :
    ℕ → List Item × Option String → List Item × Option String
  | 0, acc => acc
  | k + 1, (pool, err) =>
    if pool.length < 20 then
      let page := env.pagePick (3 - (k + 1)) % 5 + 1
      match env.getContentByProvider ctype pid page with
      | .error e => strategyOneLoop env ctype pid k (pool, some e)
      | .ok items => strategyOneLoop env ctype pid k (pushNewItems pool items, err)
    else (pool, err)

/-- The five ordered fallback strategies of `fetchContentWithStrategies`
(StreamingSlotMachine.tsx lines 417-502), building the deduplicated pool and
remembering the last underlying error. -/
def strategiesPool (env : StrategyEnv) (ctype : CType) (pid : ℕ) :
    List Item × Option String :=
  let s1 := strategyOneLoop env ctype pid 3 ([], none)
  let s2 :=
    if s1.1.length < 10 ∧ env.selectedContentTypes.length > 1 then
      match env.getContentByProvider (altType ctype) pid 1 with
      | .error e => (s1.1, some e)
      | .ok items => (pushNewItems s1.1 items, s1.2)
    else s1
  let s3 :=
    if s2.1.length < 5 then
      match env.getPopularByProvider pid 1 with
      | .error e => (s2.1, some e)
      | .ok items => (pushNewItems s2.1 items, s2.2)
    else s2
  let s4 :=
    if s3.1.length < 5 then
      match env.getRandomContent ctype 1 with
      | .error e => (s3.1, some e)
      | .ok items => (pushNewItems s3.1 items, s3.2)
    else s3
  if s4.1.length < 5 then
    match env.getTrendingContent ctype with
    | .error e => (s4.1, some e)
    | .ok items => (pushNewItems s4.1 items, s4.2)
  else s4

/-- `fetchContentWithStrategies` (StreamingSlotMachine.tsx lines 409-516):
run the five strategies; throw `API_FAILURE` carrying the last underlying
error message exactly when the final pool is empty and some strategy failed,
otherwise return the shuffled pool. -/
def fetchContentWithStrategies (env : StrategyEnv) (ctype : CType) (pid : ℕ) :
    Except AppError (List Item) :=
  match (strategiesPool env ctype pid).2 with
  | some e =>
    if (strategiesPool env ctype pid).1.isEmpty then .error (apiFailureError e)
    else .ok (env.shuffle (strategiesPool env ctype pid).1)
  | none => .ok (env.shuffle (strategiesPool env ctype pid).1)

/-- The `providerMap` of `tmdb-secure.ts` as a lookup. -/
def providerMapLookup (s : String) : Option ℕ :=
  if s = "Netflix" then some 8
  else if s = "Disney+" then some 337
  else if s = "Hulu" then some 15
  else if s = "Prime Video" then some 9
  else if s = "HBO Max" then some 1899
  else if s = "Apple TV+" then some 350
  else none

/-- `Object.values(providerMap)` in insertion order. -/
def allProviderIds : List ℕ := [8, 337, 15, 9, 1899, 350]

/-- The `sortMethods` constant of `fetchContentFromAllProviders`. -/
def sortMethods : List String :=
  ["popularity.desc", "vote_average.desc", "release_date.desc", "vote_count.desc",
   "revenue.desc"]

/-- Full environment of one spin: user selections, metadata-provider oracles
(`Except.error` models a thrown call), and the random draws consumed by the
pipeline.  `draws1`/`fidx1` feed the first `chooseContent` call and
`draws2`/`fidx2` the rating-relaxed retry. -/
structure SpinEnv where
  selectedServices : List String
  selectedContentTypes : List CType
  selectedRatings : List String
  discover : CType → ℕ → ℕ → String → Except String (List Item)
  trending : CType → Except String (List Item)
  provOracle : ℕ → Option WatchProviders
  ratingOracle : ℕ → Option String
  formatFails : ℕ → Bool
  shuffleIds : List ℕ → List ℕ
  shuffleItems : List Item → List Item
  sortPick : ℕ → ℕ → ℕ
  ctypePick : ℕ
  draws1 : ℕ → ℤ
  fidx1 : ℕ → ℕ
  draws2 : ℕ → ℤ
  fidx2 : ℕ → ℕ

/-- The per-provider page loop of `fetchContentFromAllProviders`: up to 5
pages with a random sort method each, stopping once 25 titles were added for
this provider; a thrown call aborts the remaining pages of this provider
only, keeping what was pushed so far. -/
def providerPagesLoop (env : SpinEnv) (ctype : CType) (pid : ℕ) :
    ℕ → ℕ → ℕ → List Item → List Item
  | 0, _, _, acc => acc
  | rem + 1, page, count, acc =>
    if count ≥ 25 then acc
    else
      match env.discover ctype pid page
        (sortMethods.getD (env.sortPick pid page % sortMethods.length) "popularity.desc") with
      | .error _ => acc
      | .ok items =>
        providerPagesLoop env ctype pid rem (page + 1) (count + (pushNewCount acc items).2)
          (pushNewCount acc items).1

/-- `selectedProviderIds` of `fetchContentFromAllProviders`: the ids of the
selected services; when none maps to an id, all provider ids are used. -/
def spinProviderIds (env : SpinEnv) : List ℕ :=
  if (env.selectedServices.filterMap providerMapLookup).isEmpty then allProviderIds
  else env.selectedServices.filterMap providerMapLookup

/-- The per-provider fan-out of `fetchContentFromAllProviders`: the shuffled
selected providers, each contributing up to 5 pages, deduplicated by id. -/
def spinBasePool (env : SpinEnv) (ctype : CType) : List Item :=
  (env.shuffleIds (spinProviderIds env)).foldl
    (fun acc pid => providerPagesLoop env ctype pid 5 1 0 acc) []

/-- The base pool augmented with trending content (a thrown trending call is
recovered and adds nothing). -/
def spinTrendingAugmented (env : SpinEnv) (ctype : CType) : List Item :=
  match env.trending ctype with
  | .error _ => spinBasePool env ctype
  | .ok items => pushNewItems (spinBasePool env ctype) items

/-- The pool after the `< 15` fallback block: add trending and, when several
content types are selected, the alternate type from the top 3 providers. -/
def spinExtendedPool (env : SpinEnv) (ctype : CType) : List Item :=
  if (spinBasePool env ctype).length < 15 then
    if env.selectedContentTypes.length > 1 then
      ((env.shuffleIds (spinProviderIds env)).take 3).foldl
        (fun acc pid =>
          match env.discover (altType ctype) pid 1 "popularity.desc" with
          | .error _ => acc
          | .ok items => pushNewItems acc items) (spinTrendingAugmented env ctype)
    else spinTrendingAugmented env ctype
  else spinBasePool env ctype

/-- `fetchContentFromAllProviders` (StreamingSlotMachine.tsx lines 719-827):
fan out over every selected provider (all providers when none maps to an
id), dedupe by id; when fewer than 15 titles were found add trending content
and, with several content types selected, the alternate type from the top 3
providers; every call failure is recovered locally; the pool is shuffled.
This discovery variant never signals `API_FAILURE`. -/
def fetchContentFromAllProviders (env : SpinEnv) (ctype : CType) : List Item :=
  env.shuffleItems (spinExtendedPool env ctype)

/-- The validation error raised when no streaming service is selected. -/
def servicesValidationError : AppError :=
  ⟨.PROVIDER_ERROR, "Hey stranger! 🎬 You forgot to pick a streaming service!", some ""⟩

/-- The validation error raised when no content type is selected. -/
def contentTypesValidationError : AppError :=
  ⟨.PROVIDER_ERROR, "Hold up! 🤔 You forgot to select movie or show!", some ""⟩

/-- The `NO_CONTENT` error thrown when `fetchContentFromAllProviders`
returns an empty pool. -/
def noContentFromServicesError (selectedServices : List String) : AppError :=
  ⟨.NO_CONTENT,
   "No content found from your selected services: " ++
     String.intercalate ", " selectedServices ++
     ". Try selecting different services or content types.",
   some "All selected providers returned empty results"⟩

/-- The `NO_CONTENT` error thrown when both `chooseContent` passes fail. -/
def noMatchingTitleError : AppError :=
  ⟨.NO_CONTENT,
   "We could not find a title that matches all of your selections. Try relaxing a filter and spinning again!",
   some "All candidate titles were filtered out or failed to load"⟩

/-- The React state touched by a spin: the in-flight flag, the spin budget,
the served-set of title ids and the per-service usage counters. -/
structure SpinState where
  isSpinning : Bool
  spinsRemaining : ℤ
  usedContentIds : List ℕ
  providerUsage : String → ℕ

/-- The caller-visible outcome of pressing the spin button. -/
inductive SpinOutcome where
  | ignored
  | errored (e : AppError)
  | success (id : ℕ) (providers : List String)
deriving DecidableEq, Repr

/-- The choose-call environment assembled from a spin environment using the
first (respectively second) random streams. -/
def chooseEnv1 (env : SpinEnv) : ChooseEnv :=
  ⟨env.selectedRatings, env.provOracle, env.ratingOracle, env.formatFails,
   env.draws1, env.fidx1⟩

/-- The choose-call environment of the rating-relaxed retry. -/
def chooseEnv2 (env : SpinEnv) : ChooseEnv :=
  ⟨env.selectedRatings, env.provOracle, env.ratingOracle, env.formatFails,
   env.draws2, env.fidx2⟩

/-- State after an error is caught by `spinButton`: spinning cleared and the
spin decrement restored; the served-set and usage-counter updates queued
before the failure (resets, draw-time increments) remain committed. -/
def spinErrorState (st : SpinState) (didReset : Bool) (usageQ : String → ℕ) : SpinState :=
  { isSpinning := false,
    spinsRemaining := st.spinsRemaining - 1 + 1,
    usedContentIds := if didReset then [] else st.usedContentIds,
    providerUsage := usageQ }

/-- `getRandomContentType()`: a random element of the selected content
types. -/
def spinContentType (env : SpinEnv) : CType :=
  env.selectedContentTypes.getD (env.ctypePick % env.selectedContentTypes.length) .movie

/-- The candidate pool a spin works on
(`await fetchContentFromAllProviders(contentType)`). -/
def spinAllContent (env : SpinEnv) : List Item :=
  fetchContentFromAllProviders env (spinContentType env)

/-- The provider-matched records of a spin
(`await findContentWithMatchingProviders(allContent)`). -/
def spinCwp (env : SpinEnv) : List CWP :=
  findContentWithMatchingProviders env.selectedServices env.selectedRatings
    env.provOracle env.ratingOracle (spinAllContent env)

/-- The first `chooseContent` call of a spin, with the rating constraint
requested whenever some ratings are selected. -/
def spinChoose1 (env : SpinEnv) (st : SpinState) : Option Found × ChooseState × ℕ :=
  chooseContent (chooseEnv1 env) st.providerUsage
    ⟨st.usedContentIds, [], false, st.providerUsage⟩
    (spinAllContent env) (spinCwp env) (!env.selectedRatings.isEmpty)

/-- The rating-relaxed `chooseContent` retry of a spin: it inherits the
(possibly cleared) served-set snapshot and the queued usage counters from
the first call, but a fresh per-call reset flag and drawn-this-spin set. -/
def spinChoose2 (env : SpinEnv) (st : SpinState) : Option Found × ChooseState × ℕ :=
  chooseContent (chooseEnv2 env) st.providerUsage
    ⟨(spinChoose1 env st).2.1.usedIds, [], false, (spinChoose1 env st).2.1.usageQ⟩
    (spinAllContent env) (spinCwp env) false

/-- Settled React state of a successful spin: the spin stays consumed, the
chosen id is appended to the (possibly reset) served-set and the queued
usage-counter updates are committed. -/
def spinSuccessState (st : SpinState) (didReset : Bool) (f : Found)
    (usageQ : String → ℕ) : SpinState :=
  { isSpinning := false,
    spinsRemaining := st.spinsRemaining - 1,
    usedContentIds := f.selectedId :: (if didReset then [] else st.usedContentIds),
    providerUsage := usageQ }

/-- `spinButton` (StreamingSlotMachine.tsx lines 830-981) as a state
transformer: returns the outcome, the settled React state, and whether a
served-set reset occurred during the spin. -/
def spinModel (env : SpinEnv) (st : SpinState) : SpinOutcome × SpinState × Bool :=
  if st.isSpinning = true ∨ st.spinsRemaining ≤ 0 then (.ignored, st, false)
  else if env.selectedServices.isEmpty then
    (.errored servicesValidationError, spinErrorState st false st.providerUsage, false)
  else if env.selectedContentTypes.isEmpty then
    (.errored contentTypesValidationError, spinErrorState st false st.providerUsage, false)
  else if (spinAllContent env).isEmpty then
    (.errored (noContentFromServicesError env.selectedServices),
     spinErrorState st false st.providerUsage, false)
  else
    match (spinChoose1 env st).1 with
    | some f =>
      (.success f.selectedId f.providers,
       spinSuccessState st (spinChoose1 env st).2.1.hasReset f (spinChoose1 env st).2.1.usageQ,
       (spinChoose1 env st).2.1.hasReset)
    | none =>
      if !env.selectedRatings.isEmpty then
        match (spinChoose2 env st).1 with
        | some f =>
          (.success f.selectedId f.providers,
           spinSuccessState st
             ((spinChoose1 env st).2.1.hasReset || (spinChoose2 env st).2.1.hasReset) f
             (spinChoose2 env st).2.1.usageQ,
           (spinChoose1 env st).2.1.hasReset || (spinChoose2 env st).2.1.hasReset)
        | none =>
          (.errored noMatchingTitleError,
           spinErrorState st
             ((spinChoose1 env st).2.1.hasReset || (spinChoose2 env st).2.1.hasReset)
             (spinChoose2 env st).2.1.usageQ,
           (spinChoose1 env st).2.1.hasReset || (spinChoose2 env st).2.1.hasReset)
      else
        (.errored noMatchingTitleError,
         spinErrorState st (spinChoose1 env st).2.1.hasReset (spinChoose1 env st).2.1.usageQ,
         (spinChoose1 env st).2.1.hasReset)

/-- The all-zero usage counter map. -/
def usageZero : String → ℕ := fun _ => 0

/-- A concrete movie title. -/
def itemA : Item := ⟨1, .movie⟩

/-- A second concrete movie title. -/
def itemB : Item := ⟨2, .movie⟩

/-- A concrete offer map with a single Hulu subscription offer. -/
def huluOffer : WatchProviders := ⟨[⟨"Hulu"⟩], [], [], [], []⟩

/-- A concrete offer map with a single Netflix subscription offer. -/
def netflixOffer : WatchProviders := ⟨[⟨"Netflix"⟩], [], [], [], []⟩

/-- A concrete provider oracle: title 1 streams on Hulu, title 2 on
Netflix. -/
def demoProvOracle : ℕ → Option WatchProviders := fun id =>
  if id = 1 then some huluOffer else if id = 2 then some netflixOffer else none

/-- A concrete spin environment: Netflix and Hulu selected, no maturity
filter, discovery finds titles 1 and 2 on the first Netflix page, and
`formatContentItem` throws for title 1 only. -/
def demoSpinEnv : SpinEnv :=
  { selectedServices := ["Netflix", "Hulu"],
    selectedContentTypes := [.movie],
    selectedRatings := [],
    discover := fun _ pid page _ =>
      if pid = 8 ∧ page = 1 then .ok [itemA, itemB] else .error "boom",
    trending := fun _ => .error "boom",
    provOracle := demoProvOracle,
    ratingOracle := fun _ => none,
    formatFails := fun id => id == 1,
    shuffleIds := fun l => l,
    shuffleItems := fun l => l,
    sortPick := fun _ _ => 0,
    ctypePick := 0,
    draws1 := fun _ => 5, fidx1 := fun _ => 0,
    draws2 := fun _ => 5, fidx2 := fun _ => 0 }

/-- The ready state with 3 spins, nothing served, all counters zero. -/
def demoSpinState : SpinState := ⟨false, 3, [], usageZero⟩

/-- `demoSpinEnv` with a maturity filter selected and every
`formatContentItem` call throwing — all candidates get rejected. -/
def ratedSpinEnv : SpinEnv :=
  { demoSpinEnv with
    selectedRatings := ["G"],
    formatFails := fun _ => true }

/-- A spin environment in which every metadata call throws. -/
def failSpinEnv : SpinEnv :=
  { demoSpinEnv with
    selectedServices := ["Netflix"],
    discover := fun _ _ _ _ => .error "TMDB down",
    trending := fun _ => .error "TMDB down",
    provOracle := fun _ => none }

/-- `demoSpinEnv` with the service selection emptied (the validation
scenario). -/
def noServicesSpinEnv : SpinEnv := { demoSpinEnv with selectedServices := [] }

/-- A concrete provider-matched record for title 1 on Hulu. -/
def cwpHulu : CWP := ⟨1, .movie, ["Hulu"], none, some true⟩

/-- A concrete provider-matched record for title 2 on Netflix. -/
def cwpNetflix : CWP := ⟨2, .movie, ["Netflix"], none, some true⟩

/-- A provider-matched record for title 2 carrying a prefetched `G` rating
that passes the filter. -/
def cwpRatedG : CWP := ⟨2, .movie, ["Netflix"], some (some "G"), some true⟩

/-- A choose-call environment whose rating oracle always answers `G` and
whose formatting never fails. -/
def ratedChooseEnv : ChooseEnv :=
  ⟨["G"], demoProvOracle, fun _ => some "G", fun _ => false, fun _ => 5, fun _ => 0⟩

/-! ## Helper lemmas -/

theorem mem_of_contains {α : Type} [BEq α] [LawfulBEq α] {l : List α} {a : α}
    (h : l.contains a = true) : a ∈ l :=
  List.elem_iff.mp h

theorem contains_of_mem {α : Type} [BEq α] [LawfulBEq α] {l : List α} {a : α}
    (h : a ∈ l) : l.contains a = true :=
  List.elem_iff.mpr h

theorem not_mem_of_contains_eq_false {α : Type} [BEq α] [LawfulBEq α] {l : List α} {a : α}
    (h : l.contains a = false) : a ∉ l :=
  fun hm => by rw [contains_of_mem hm] at h; cases h

theorem mem_uniqueFirstAux (a : String) :
    ∀ (l seen : List String), a ∈ uniqueFirstAux seen l ↔ a ∈ l ∧ a ∉ seen := by
  intro l
  induction l with
  | nil => simp [uniqueFirstAux]
  | cons b rest ih =>
    intro seen
    unfold uniqueFirstAux
    by_cases hb : seen.contains b = true
    · have hbseen : b ∈ seen := mem_of_contains hb
      rw [if_pos hb, ih]
      simp only [List.mem_cons]
      by_cases hab : a = b
      · subst hab; tauto
      · tauto
    · have hbseen : b ∉ seen := fun hm => hb (contains_of_mem hm)
      rw [if_neg hb]
      simp only [List.mem_cons, ih]
      by_cases hab : a = b
      · subst hab; tauto
      · tauto

theorem mem_uniqueFirst (a : String) (l : List String) : a ∈ uniqueFirst l ↔ a ∈ l := by
  unfold uniqueFirst
  rw [mem_uniqueFirstAux]
  simp

theorem nodup_uniqueFirstAux : ∀ (l seen : List String), (uniqueFirstAux seen l).Nodup := by
  intro l
  induction l with
  | nil => simp [uniqueFirstAux]
  | cons b rest ih =>
    intro seen
    unfold uniqueFirstAux
    by_cases hb : seen.contains b = true
    · rw [if_pos hb]
      exact ih seen
    · rw [if_neg hb]
      refine List.nodup_cons.mpr ⟨?_, ih (b :: seen)⟩
      intro hmem
      exact ((mem_uniqueFirstAux b rest (b :: seen)).mp hmem).2 (List.mem_cons_self b seen)

theorem nodup_uniqueFirst (l : List String) : (uniqueFirst l).Nodup :=
  nodup_uniqueFirstAux l []

theorem mem_formatProviders (w : WatchProviders) (p : String) :
    p ∈ formatProviders (some w) ↔
      ((∃ e ∈ w.flatrate ++ w.free ++ w.ads ++ w.buy ++ w.rent,
          TmdbSecure.normalizeProviderName e.provider_name = p) ∧
        ∃ s ∈ streamingServices, s.name = p) := by
  unfold formatProviders
  simp only [List.mem_filter, mem_uniqueFirst, List.mem_map, List.any_eq_true,
    decide_eq_true_eq]

theorem formatProviders_nodup (o : Option WatchProviders) : (formatProviders o).Nodup := by
  cases o with
  | none => simp [formatProviders]
  | some w => exact (nodup_uniqueFirst _).filter _

theorem formatProviders_mem_supported (o : Option WatchProviders) (p : String)
    (hp : p ∈ formatProviders o) :
    p ∈ ["Netflix", "Disney+", "Hulu", "Prime Video", "HBO Max", "Apple TV+"] := by
  cases o with
  | none => simp [formatProviders] at hp
  | some w =>
    obtain ⟨-, s, hs, rfl⟩ := (mem_formatProviders w p).mp hp
    simp only [streamingServices, List.mem_cons, List.not_mem_nil, or_false] at hs
    rcases hs with rfl | rfl | rfl | rfl | rfl | rfl <;> simp


theorem processInspectedItem_out (ss sr : List String) (po : ℕ → Option WatchProviders)
    (ro : ℕ → Option String) (st : FilterState) (it : Item) :
    (processInspectedItem ss sr po ro st it).out = st.out ∨
    ∃ w, po it.id = some w ∧
      (formatProviders (some w)).filter (fun p => ss.contains p) ≠ [] ∧
      (processInspectedItem ss sr po ro st it).out =
        st.out ++ [⟨it.id, it.ctype,
          (formatProviders (some w)).filter (fun p => ss.contains p),
          (if sr = [] then none else some (ro it.id)),
          some (if sr = [] then true
            else match ro it.id with
              | none => false
              | some r => sr.contains r)⟩] := by
  unfold processInspectedItem
  split
  · exact Or.inl rfl
  · split
    · exact Or.inl rfl
    · cases hpo : po it.id with
      | none => exact Or.inl rfl
      | some w =>
        simp only
        split
        · exact Or.inl rfl
        · rename_i hne
          exact Or.inr ⟨w, rfl, hne, rfl⟩

theorem findContent_records_spec (ss sr : List String) (po : ℕ → Option WatchProviders)
    (ro : ℕ → Option String) (ac : List Item) :
    ∀ rec ∈ findContentWithMatchingProviders ss sr po ro ac,
      rec.actualProviders ≠ [] ∧
      ∃ w, po rec.id = some w ∧
        rec.actualProviders = (formatProviders (some w)).filter (fun p => ss.contains p) := by
  unfold findContentWithMatchingProviders
  suffices H : ∀ (items : List Item) (st : FilterState),
      (∀ rec ∈ st.out, rec.actualProviders ≠ [] ∧
        ∃ w, po rec.id = some w ∧
          rec.actualProviders = (formatProviders (some w)).filter (fun p => ss.contains p)) →
      ∀ rec ∈ (items.foldl (processInspectedItem ss sr po ro) st).out,
        rec.actualProviders ≠ [] ∧
        ∃ w, po rec.id = some w ∧
          rec.actualProviders = (formatProviders (some w)).filter (fun p => ss.contains p) by
    intro rec hrec
    exact H _ ⟨[], [], 0⟩ (by simp) rec hrec
  intro items
  induction items with
  | nil =>
    intro st h
    simpa using h
  | cons it rest ih =>
    intro st h
    rw [List.foldl_cons]
    apply ih
    intro rec hrec
    rcases processInspectedItem_out ss sr po ro st it with hsame | ⟨w, hpo, hne, hout⟩
    · rw [hsame] at hrec
      exact h rec hrec
    · rw [hout] at hrec
      rcases List.mem_append.mp hrec with hold | hnew
      · exact h rec hold
      · have hrec' : rec = ⟨it.id, it.ctype,
            (formatProviders (some w)).filter (fun p => ss.contains p),
            (if sr = [] then none else some (ro it.id)),
            some (if sr = [] then true
              else match ro it.id with
                | none => false
                | some r => sr.contains r)⟩ := by
          simpa using hnew
        subst hrec'
        exact ⟨hne, w, hpo, rfl⟩

/-! ## C2 — Provider-Match Filter output invariant -/

/-- C2: for every input pool and every non-empty user selection, each record
returned by `findContentWithMatchingProviders` has a non-empty
`actualProviders` list, every element of which belongs to the selected
services; the list is exactly the intersection of the title's normalized
offered providers with the selection. -/
theorem C2_provider_match_filter_invariant (ss sr : List String)
    (po : ℕ → Option WatchProviders) (ro : ℕ → Option String) (ac : List Item)
    (_hss : ss ≠ []) :
    ∀ rec ∈ findContentWithMatchingProviders ss sr po ro ac,
      rec.actualProviders ≠ [] ∧
      (∀ p ∈ rec.actualProviders, p ∈ ss) ∧
      ∃ w, po rec.id = some w ∧
        rec.actualProviders = (formatProviders (some w)).filter (fun p => ss.contains p) := by
  intro rec hrec
  obtain ⟨hne, w, hpo, heq⟩ := findContent_records_spec ss sr po ro ac rec hrec
  refine ⟨hne, ?_, w, hpo, heq⟩
  intro p hp
  rw [heq] at hp
  exact mem_of_contains (List.mem_filter.mp hp).2

/-- Witness for C2 at a concrete pool: with Netflix selected and title 2
streaming on Netflix, the single returned record is valid. -/
theorem C2_provider_match_filter_invariant_witness :
    cwpNetflix.actualProviders ≠ [] ∧
    (∀ p ∈ cwpNetflix.actualProviders, p ∈ ["Netflix"]) ∧
    ∃ w, (fun _ : ℕ => some netflixOffer) cwpNetflix.id = some w ∧
      cwpNetflix.actualProviders =
        (formatProviders (some w)).filter (fun p => ["Netflix"].contains p) :=
  C2_provider_match_filter_invariant ["Netflix"] [] (fun _ => some netflixOffer)
    (fun _ => none) [itemB] (by decide) cwpNetflix (by decide)

/-! ## C9 — offer kinds counted as availability -/

/-- C9 counterexample: a title whose only offers are a Netflix `buy` offer
and a Hulu `rent` offer is nevertheless reported as available on both, so
buy and rent offer kinds do count as availability, contrary to the claim. -/
theorem C9_buy_rent_counterexample :
    formatProviders (some ⟨[], [], [], [⟨"Netflix"⟩], [⟨"Hulu"⟩]⟩) = ["Netflix", "Hulu"] ∧
    formatProviders (some ⟨[], [], [], [⟨"Netflix"⟩], [⟨"Hulu"⟩]⟩) ≠ [] := by
  decide

/-- C9 amended: a service name is reported as an availability of a title
exactly when some offer of any of the five pooled kinds — flatrate
(subscription), free, ad-supported, and also buy and rent — normalizes to
that name and the name is one of the supported services. -/
theorem C9_amended_all_offer_kinds_count (w : WatchProviders) (p : String) :
    p ∈ formatProviders (some w) ↔
      ((∃ e ∈ w.flatrate ++ w.free ++ w.ads ++ w.buy ++ w.rent,
          TmdbSecure.normalizeProviderName e.provider_name = p) ∧
        p ∈ streamingServices.map StreamingService.name) := by
  rw [mem_formatProviders]
  simp only [List.mem_map]

/-! ## C10 — only the six supported services can appear -/

/-- C10: for every offer map (including `null`), `formatProviders` returns a
duplicate-free list of names drawn from the six supported services; a `null`
map contributes nothing; and consequently every candidate record's
`actualProviders` only holds supported service names. -/
theorem C10_supported_services_only (o : Option WatchProviders) :
    (formatProviders o).Nodup ∧
    (∀ p ∈ formatProviders o,
      p ∈ ["Netflix", "Disney+", "Hulu", "Prime Video", "HBO Max", "Apple TV+"]) ∧
    formatProviders none = [] ∧
    (∀ (ss sr : List String) (po : ℕ → Option WatchProviders) (ro : ℕ → Option String)
        (ac : List Item), ∀ rec ∈ findContentWithMatchingProviders ss sr po ro ac,
        ∀ p ∈ rec.actualProviders,
          p ∈ ["Netflix", "Disney+", "Hulu", "Prime Video", "HBO Max", "Apple TV+"]) := by
  refine ⟨formatProviders_nodup o, fun p hp => formatProviders_mem_supported o p hp, rfl,
    ?_⟩
  intro ss sr po ro ac rec hrec p hp
  obtain ⟨-, w, -, heq⟩ := findContent_records_spec ss sr po ro ac rec hrec
  rw [heq] at hp
  exact formatProviders_mem_supported (some w) p (List.mem_filter.mp hp).1

/-- Witness for C10 at concrete inputs: the Netflix-only offer map and the
concrete filter run of title 2. -/
theorem C10_supported_services_only_witness :
    "Netflix" ∈ ["Netflix", "Disney+", "Hulu", "Prime Video", "HBO Max", "Apple TV+"] ∧
    "Netflix" ∈ ["Netflix", "Disney+", "Hulu", "Prime Video", "HBO Max", "Apple TV+"] :=
  ⟨(C10_supported_services_only (some netflixOffer)).2.1 "Netflix" (by decide),
   (C10_supported_services_only (some netflixOffer)).2.2.2 ["Netflix"] []
     (fun _ => some netflixOffer) (fun _ => none) [itemB] cwpNetflix (by decide)
     "Netflix" (by decide)⟩

/-! ## C7 — provider-name normalization -/

/-- C7: the active (`tmdb-secure.ts`) `normalizeProviderName` leaves both
`"Amazon Prime Video"` and `"Amazon Video"` unchanged, so the claimed
three-way alias collapse fails on the code the component runs, while the
legacy `tmdb.ts` variant does collapse all three aliases to
`"Prime Video"`. -/
theorem C7_amazon_alias_normalization :
    TmdbSecure.normalizeProviderName "Amazon Prime Video" = "Amazon Prime Video" ∧
    TmdbSecure.normalizeProviderName "Amazon Video" = "Amazon Video" ∧
    TmdbSecure.normalizeProviderName "Prime Video" = "Prime Video" ∧
    TmdbSecure.normalizeProviderName "Amazon Prime Video" ≠
      TmdbSecure.normalizeProviderName "Prime Video" ∧
    Tmdb.normalizeProviderName "Amazon Prime Video" = "Prime Video" ∧
    Tmdb.normalizeProviderName "Amazon Video" = "Prime Video" ∧
    Tmdb.normalizeProviderName "Prime Video" = "Prime Video" := by
  decide

/-! ## C1 — balanced weighted selection -/

theorem jsMax_eq_max (a b : ℤ) : jsMax a b = max a b := by
  unfold jsMax
  exact (max_def a b).symm

theorem providerWeight_one_le (u : String → ℕ) (it : CWP) : 1 ≤ providerWeight u it := by
  rw [providerWeight, jsMax_eq_max]
  exact le_max_left _ _

theorem cumWeight_nonneg (u : String → ℕ) (l : List CWP) : 0 ≤ cumWeight u l := by
  unfold cumWeight
  induction l with
  | nil => simp
  | cons a t ih =>
    simp only [List.map_cons, List.sum_cons]
    have := providerWeight_one_le u a
    linarith

theorem cumWeight_take_succ (u : String → ℕ) (l : List CWP) (i : ℕ) (hi : i < l.length) :
    cumWeight u (l.take (i + 1)) = cumWeight u (l.take i) + providerWeight u (l.get ⟨i, hi⟩) := by
  unfold cumWeight
  rw [List.map_take, List.map_take, List.sum_take_succ _ i (by simpa using hi)]
  simp

theorem cumWeight_take_le (u : String → ℕ) (l : List CWP) (k : ℕ) :
    cumWeight u (l.take k) ≤ cumWeight u l := by
  conv_rhs => rw [← List.take_append_drop k l]
  unfold cumWeight
  rw [List.map_append, List.sum_append]
  have := cumWeight_nonneg u (l.drop k)
  unfold cumWeight at this
  linarith

theorem cumulativePick_eq_get (u : String → ℕ) :
    ∀ (l : List CWP) (i : ℕ) (hi : i < l.length) (x : ℤ),
      cumWeight u (l.take i) < x → x ≤ cumWeight u (l.take (i + 1)) →
      cumulativePick u l x = some (l.get ⟨i, hi⟩) := by
  intro l
  induction l with
  | nil =>
    intro i hi
    exact absurd hi (by simp)
  | cons a rest ih =>
    intro i hi x hlow hhigh
    cases i with
    | zero =>
      have h1 : cumWeight u ((a :: rest).take 1) = providerWeight u a := by
        simp [cumWeight]
      unfold cumulativePick
      rw [if_pos (by rw [h1] at hhigh; linarith)]
      rfl
    | succ i =>
      have hi' : i < rest.length := by simpa using hi
      have hc : cumWeight u ((a :: rest).take (i + 1)) =
          providerWeight u a + cumWeight u (rest.take i) := by
        simp [cumWeight, List.take_succ_cons]
      have hc2 : cumWeight u ((a :: rest).take (i + 2)) =
          providerWeight u a + cumWeight u (rest.take (i + 1)) := by
        simp [cumWeight, List.take_succ_cons]
      have hnn : 0 ≤ cumWeight u (rest.take i) := cumWeight_nonneg u _
      unfold cumulativePick
      rw [if_neg (by rw [hc] at hlow; simp only [not_le]; linarith)]
      exact ih i hi' (x - providerWeight u a) (by rw [hc] at hlow; linarith)
        (by rw [hc2] at hhigh; linarith)

/-- C1: the Balanced Selector weighs each record as
`max(1, 10 − usage of its first-listed matched service)`; the weight is at
least 1; the draws selecting the `i`-th eligible record form the interval
between the cumulative weight before it and after it — an interval of
positive length `weight i` inside the total draw range — so every eligible
record (hence every service with an eligible candidate) has strictly
positive selection probability. -/
theorem C1_weighted_selection_positive_support (usage0 usageQ : String → ℕ)
    (l : List CWP) (i : ℕ) (hi : i < l.length) (x : ℤ) (j : ℕ)
    (hlow : cumWeight usage0 (l.take i) < x)
    (hhigh : x ≤ cumWeight usage0 (l.take (i + 1))) :
    (selectBalancedContent usage0 usageQ l x j).map Prod.fst = some (l.get ⟨i, hi⟩) ∧
    providerWeight usage0 (l.get ⟨i, hi⟩) =
      max 1 (10 - (usage0 (primaryProvider (l.get ⟨i, hi⟩)) : ℤ)) ∧
    1 ≤ providerWeight usage0 (l.get ⟨i, hi⟩) ∧
    cumWeight usage0 (l.take (i + 1)) =
      cumWeight usage0 (l.take i) + providerWeight usage0 (l.get ⟨i, hi⟩) ∧
    cumWeight usage0 (l.take (i + 1)) ≤ cumWeight usage0 l := by
  refine ⟨?_, by rw [providerWeight, jsMax_eq_max], providerWeight_one_le usage0 _,
    cumWeight_take_succ usage0 l i hi, cumWeight_take_le usage0 l (i + 1)⟩
  cases l with
  | nil => exact absurd hi (by simp)
  | cons a rest =>
    cases rest with
    | nil =>
      have h0 : i = 0 := by
        have : i < 1 := by simpa using hi
        omega
      subst h0
      rfl
    | cons b rest2 =>
      have hpick := cumulativePick_eq_get usage0 (a :: b :: rest2) i hi x hlow hhigh
      unfold selectBalancedContent
      simp [hpick]

/-- Witness for C1: on a two-record pool with all-zero usage, the draw 5
lies in the first record's interval (0, 10] and selects it. -/
theorem C1_weighted_selection_positive_support_witness :
    (selectBalancedContent usageZero usageZero [cwpHulu, cwpNetflix] 5 0).map Prod.fst =
      some cwpHulu ∧ 1 ≤ providerWeight usageZero cwpHulu := by
  have h := C1_weighted_selection_positive_support usageZero usageZero [cwpHulu, cwpNetflix]
    0 (by decide) 5 0 (by decide) (by decide)
  exact ⟨h.1, h.2.2.1⟩

/-! ## Lemmas about the selector and the choose loop -/

theorem getD_mem {α : Type} (l : List α) (n : ℕ) (d : α) (hd : d ∈ l) : l.getD n d ∈ l := by
  rw [List.getD_eq_getElem?_getD]
  cases h : l[n]? with
  | none => simpa using hd
  | some v => simpa using List.getElem?_mem h

theorem cumulativePick_mem (u : String → ℕ) :
    ∀ (l : List CWP) (x : ℤ) (c : CWP), cumulativePick u l x = some c → c ∈ l := by
  intro l
  induction l with
  | nil => intro x c h; simp [cumulativePick] at h
  | cons a rest ih =>
    intro x c h
    unfold cumulativePick at h
    split at h
    · exact (Option.some.inj h) ▸ List.mem_cons_self a rest
    · exact List.mem_cons_of_mem a (ih _ c h)

theorem selectBalancedContent_mem (u0 uq : String → ℕ) (l : List CWP) (x : ℤ) (j : ℕ)
    (c : CWP) (u' : String → ℕ) (h : selectBalancedContent u0 uq l x j = some (c, u')) :
    c ∈ l := by
  cases l with
  | nil => simp [selectBalancedContent] at h
  | cons a rest =>
    cases rest with
    | nil =>
      unfold selectBalancedContent at h
      have := (Option.some.inj h)
      have hc : c = a := congrArg Prod.fst this.symm
      exact hc ▸ List.mem_cons_self a []
    | cons b rest2 =>
      unfold selectBalancedContent at h
      simp only at h
      split at h
      · rename_i item hpick
        have hc : c = item := congrArg Prod.fst (Option.some.inj h).symm
        exact hc ▸ cumulativePick_mem u0 _ x item hpick
      · have hc : c = (a :: b :: rest2).getD (j % (a :: b :: rest2).length) a :=
          congrArg Prod.fst (Option.some.inj h).symm
        exact hc ▸ getD_mem _ _ a (List.mem_cons_self a _)

theorem selectBalancedContent_usage (u0 uq : String → ℕ) (l : List CWP) (x : ℤ) (j : ℕ)
    (c : CWP) (u' : String → ℕ) (hlen : 2 ≤ l.length)
    (h : selectBalancedContent u0 uq l x j = some (c, u')) :
    u' = bumpUsage uq (primaryProvider c) := by
  cases l with
  | nil => simp at hlen
  | cons a rest =>
    cases rest with
    | nil => simp at hlen
    | cons b rest2 =>
      unfold selectBalancedContent at h
      simp only at h
      split at h
      · rename_i item hpick
        obtain ⟨h1, h2⟩ := Prod.mk.injEq .. ▸ Option.some.inj h
        subst h1
        exact h2.symm
      · obtain ⟨h1, h2⟩ := Prod.mk.injEq .. ▸ Option.some.inj h
        subst h1
        exact h2.symm

theorem selectBalancedContent_single (u0 uq : String → ℕ) (s : CWP) (x : ℤ) (j : ℕ) :
    selectBalancedContent u0 uq [s] x j = some (s, uq) := rfl

theorem bumpUsage_self (u : String → ℕ) (p : String) : bumpUsage u p p = u p + 1 := by
  simp [bumpUsage]

theorem bumpUsage_other (u : String → ℕ) (p q : String) (h : q ≠ p) :
    bumpUsage u p q = u q := by
  simp [bumpUsage, h]

theorem mem_eligiblePool {st : ChooseState} {er : Bool} {cwp : List CWP} {c : CWP}
    (h : c ∈ eligiblePool st er cwp) : c ∈ cwp ∧ c.id ∉ st.usedIds ∧ c.id ∉ st.seen := by
  obtain ⟨hmem, hpred⟩ := List.mem_filter.mp h
  simp only [Bool.and_eq_true, Bool.not_eq_true'] at hpred
  exact ⟨hmem, not_mem_of_contains_eq_false hpred.1.1,
    not_mem_of_contains_eq_false hpred.1.2⟩

theorem mem_prioritizedPool {er : Bool} {pool : List CWP} {c : CWP}
    (h : c ∈ prioritizedPool er pool) : c ∈ pool := by
  unfold prioritizedPool at h
  split at h
  · exact h
  · rcases List.mem_append.mp h with h1 | h1
    · exact (List.mem_filter.mp h1).1
    · exact (List.mem_filter.mp h1).1

theorem mem_eligibleFallbackPool {st : ChooseState} {ac : List Item} {c : Item}
    (h : c ∈ eligibleFallbackPool st ac) : c ∈ ac ∧ c.id ∉ st.usedIds ∧ c.id ∉ st.seen := by
  obtain ⟨hmem, hpred⟩ := List.mem_filter.mp h
  simp only [Bool.and_eq_true, Bool.not_eq_true'] at hpred
  exact ⟨hmem, not_mem_of_contains_eq_false hpred.1,
    not_mem_of_contains_eq_false hpred.2⟩

theorem poolPhase_picked_spec (env : ChooseEnv) (u : String → ℕ) (cwp : List CWP)
    (er : Bool) (n : ℕ) (st : ChooseState) (cand : Item) (provs : List String)
    (hint : Option (Option String)) (st' : ChooseState)
    (h : poolPhase env u cwp er n st = .picked cand provs hint st') :
    st'.usedIds = st.usedIds ∧ st'.hasReset = st.hasReset ∧ cand.id ∉ st.usedIds := by
  unfold poolPhase at h
  split at h
  · exact PoolPhase.noConfusion h
  · split at h
    · split at h <;> exact PoolPhase.noConfusion h
    · split at h
      · exact PoolPhase.noConfusion h
      · rename_i chosen usageQ' hsel
        obtain ⟨hcand, hprovs, hhint, hst⟩ := PoolPhase.picked.inj h
        subst hst
        refine ⟨rfl, rfl, ?_⟩
        have hmem := selectBalancedContent_mem u st.usageQ _ (env.draws n) (env.fidx n)
          chosen usageQ' hsel
        have hid : cand.id = chosen.id := by rw [← hcand]; rfl
        rw [hid]
        exact (mem_eligiblePool (mem_prioritizedPool hmem)).2.1

theorem evalCandidate_cont_spec (env : ChooseEnv) (er : Bool) (cand : Item)
    (provs : List String) (hint : Option (Option String)) (st st' : ChooseState)
    (h : evalCandidate env er cand provs hint st = .cont st') : st' = st := by
  unfold evalCandidate at h
  split at h
  · exact (StepResult.cont.inj h).symm
  · split at h
    · exact (StepResult.cont.inj h).symm
    · exact StepResult.noConfusion h

theorem evalCandidate_never_halts (env : ChooseEnv) (er : Bool) (cand : Item)
    (provs : List String) (hint : Option (Option String)) (st st' : ChooseState)
    (h : evalCandidate env er cand provs hint st = .halt st') : False := by
  unfold evalCandidate at h
  split at h
  · exact StepResult.noConfusion h
  · split at h <;> exact StepResult.noConfusion h

theorem evalCandidate_done_spec (env : ChooseEnv) (er : Bool) (cand : Item)
    (provs : List String) (hint : Option (Option String)) (st st' : ChooseState)
    (f : Found) (h : evalCandidate env er cand provs hint st = .done f st') :
    st' = st ∧ f.selectedId = cand.id ∧
    (er = true → ∃ r, f.rating = some r ∧ r ∈ env.selectedRatings) := by
  unfold evalCandidate at h
  split at h
  · exact StepResult.noConfusion h
  · split at h
    · exact StepResult.noConfusion h
    · rename_i hguard
      obtain ⟨hf, hst⟩ := StepResult.done.inj h
      subst hf
      refine ⟨hst.symm, rfl, ?_⟩
      intro her
      subst her
      simp only [Bool.true_and, Bool.not_eq_true', Bool.not_eq_false] at hguard
      cases hr : effectiveRating env cand hint with
      | none =>
        rw [hr] at hguard
        simp [ratingAccepted] at hguard
      | some r =>
        refine ⟨r, by simp [hr], ?_⟩
        rw [hr] at hguard
        simp only [ratingAccepted] at hguard
        exact mem_of_contains hguard

theorem fallbackStep_cont_spec (env : ChooseEnv) (er : Bool) (n : ℕ) (st : ChooseState)
    (pool : List Item) (a : Item) (st' : ChooseState)
    (h : fallbackStep env er n st pool a = .cont st') :
    st'.usedIds = st.usedIds ∧ st'.hasReset = st.hasReset := by
  unfold fallbackStep at h
  rw [evalCandidate_cont_spec _ _ _ _ _ _ _ h]
  exact ⟨rfl, rfl⟩

theorem fallbackStep_done_spec (env : ChooseEnv) (er : Bool) (n : ℕ) (st : ChooseState)
    (pool : List Item) (a : Item) (f : Found) (st' : ChooseState)
    (ha : a ∈ pool) (hpool : ∀ c ∈ pool, c.id ∉ st.usedIds)
    (h : fallbackStep env er n st pool a = .done f st') :
    st'.usedIds = st.usedIds ∧ st'.hasReset = st.hasReset ∧ f.selectedId ∉ st.usedIds ∧
    (er = true → ∃ r, f.rating = some r ∧ r ∈ env.selectedRatings) := by
  unfold fallbackStep at h
  obtain ⟨hst, hid, hrat⟩ := evalCandidate_done_spec _ _ _ _ _ _ _ _ h
  subst hst
  refine ⟨rfl, rfl, ?_, hrat⟩
  rw [hid]
  exact hpool _ (getD_mem pool (env.fidx n % pool.length) a ha)

theorem fallbackStep_never_halts (env : ChooseEnv) (er : Bool) (n : ℕ) (st : ChooseState)
    (pool : List Item) (a : Item) (st' : ChooseState)
    (h : fallbackStep env er n st pool a = .halt st') : False :=
  evalCandidate_never_halts _ _ _ _ _ _ _ (by rw [← h]; rfl)

theorem attemptStep_cont_spec (env : ChooseEnv) (u : String → ℕ) (ac : List Item)
    (cwp : List CWP) (er : Bool) (n : ℕ) (st st' : ChooseState)
    (h : attemptStep env u ac cwp er n st = .cont st') :
    st' = resetChooseState st ∨ (st'.usedIds = st.usedIds ∧ st'.hasReset = st.hasReset) := by
  unfold attemptStep at h
  split at h
  · exact Or.inl (StepResult.cont.inj h).symm
  · rename_i cand provs hint st1 hpool
    obtain ⟨h1, h2, h3⟩ := poolPhase_picked_spec env u cwp er n st cand provs hint st1 hpool
    rw [evalCandidate_cont_spec _ _ _ _ _ _ _ h]
    exact Or.inr ⟨h1, h2⟩
  · split at h
    · split at h
      · exact Or.inl (StepResult.cont.inj h).symm
      · exact StepResult.noConfusion h
    · obtain ⟨h1, h2⟩ := fallbackStep_cont_spec _ _ _ _ _ _ _ h
      exact Or.inr ⟨h1, h2⟩

theorem attemptStep_done_spec (env : ChooseEnv) (u : String → ℕ) (ac : List Item)
    (cwp : List CWP) (er : Bool) (n : ℕ) (st st' : ChooseState) (f : Found)
    (h : attemptStep env u ac cwp er n st = .done f st') :
    st'.usedIds = st.usedIds ∧ st'.hasReset = st.hasReset ∧ f.selectedId ∉ st.usedIds ∧
    (er = true → ∃ r, f.rating = some r ∧ r ∈ env.selectedRatings) := by
  unfold attemptStep at h
  split at h
  · exact StepResult.noConfusion h
  · rename_i cand provs hint st1 hpool
    obtain ⟨h1, h2, h3⟩ := poolPhase_picked_spec env u cwp er n st cand provs hint st1 hpool
    obtain ⟨hst, hid, hrat⟩ := evalCandidate_done_spec _ _ _ _ _ _ _ _ h
    subst hst
    exact ⟨h1, h2, by rw [hid]; exact h3, hrat⟩
  · split at h
    · split at h <;> exact StepResult.noConfusion h
    · rename_i a rest hfall
      refine fallbackStep_done_spec env er n st (a :: rest) a f st' ?_ ?_ h
      · exact List.mem_cons_self a rest
      · intro c hc
        rw [← hfall] at hc
        exact (mem_eligibleFallbackPool hc).2.1

theorem attemptStep_halt_spec (env : ChooseEnv) (u : String → ℕ) (ac : List Item)
    (cwp : List CWP) (er : Bool) (n : ℕ) (st st' : ChooseState)
    (h : attemptStep env u ac cwp er n st = .halt st') : st' = st := by
  unfold attemptStep at h
  split at h
  · exact StepResult.noConfusion h
  · exact absurd h (fun hh => evalCandidate_never_halts _ _ _ _ _ _ _ hh)
  · split at h
    · split at h
      · exact StepResult.noConfusion h
      · exact (StepResult.halt.inj h).symm
    · exact absurd h (fun hh => fallbackStep_never_halts _ _ _ _ _ _ _ hh)

theorem chooseLoop_spec (env : ChooseEnv) (u : String → ℕ) (ac : List Item)
    (cwp : List CWP) (er : Bool) :
    ∀ (fuel : ℕ) (st : ChooseState),
      (st.hasReset = true → (chooseLoop env u ac cwp er fuel st).2.1.hasReset = true) ∧
      ((chooseLoop env u ac cwp er fuel st).2.1.hasReset = false →
        st.hasReset = false ∧ (chooseLoop env u ac cwp er fuel st).2.1.usedIds = st.usedIds) ∧
      (∀ f, (chooseLoop env u ac cwp er fuel st).1 = some f →
        ((chooseLoop env u ac cwp er fuel st).2.1.hasReset = false →
          f.selectedId ∉ st.usedIds) ∧
        (er = true → ∃ r, f.rating = some r ∧ r ∈ env.selectedRatings)) ∧
      (chooseLoop env u ac cwp er fuel st).2.2 ≤ fuel := by
  intro fuel
  induction fuel with
  | zero =>
    intro st
    refine ⟨fun h => h, fun h => ⟨h, rfl⟩, ?_, le_refl 0⟩
    intro f hf
    exact absurd hf (by simp [chooseLoop])
  | succ fuel ih =>
    intro st
    cases hstep : attemptStep env u ac cwp er (fuel + 1) st with
    | done f0 st1 =>
      have hL : chooseLoop env u ac cwp er (fuel + 1) st = (some f0, st1, 1) := by
        simp [chooseLoop, hstep]
      obtain ⟨hu, hr, hni, hrat⟩ :=
        attemptStep_done_spec env u ac cwp er (fuel + 1) st st1 f0 hstep
      rw [hL]
      refine ⟨?_, ?_, ?_, by show (1 : ℕ) ≤ fuel + 1; omega⟩
      · intro h; rw [hr]; exact h
      · intro h; rw [hr] at h; exact ⟨h, hu⟩
      · intro f hf
        have hf0 : f = f0 := (Option.some.inj hf).symm
        subst hf0
        exact ⟨fun _ => hni, hrat⟩
    | halt st1 =>
      have hst1 := attemptStep_halt_spec env u ac cwp er (fuel + 1) st st1 hstep
      have hL : chooseLoop env u ac cwp er (fuel + 1) st = (none, st1, 1) := by
        simp [chooseLoop, hstep]
      rw [hL, hst1]
      refine ⟨fun h => h, fun h => ⟨h, rfl⟩, ?_, by show (1 : ℕ) ≤ fuel + 1; omega⟩
      intro f hf
      exact absurd hf (by simp)
    | cont st1 =>
      have hL : chooseLoop env u ac cwp er (fuel + 1) st =
          ((chooseLoop env u ac cwp er fuel st1).1,
           (chooseLoop env u ac cwp er fuel st1).2.1,
           (chooseLoop env u ac cwp er fuel st1).2.2 + 1) := by
        simp [chooseLoop, hstep]
      obtain ⟨ih1, ih2, ih3, ih4⟩ := ih st1
      rw [hL]
      rcases attemptStep_cont_spec env u ac cwp er (fuel + 1) st st1 hstep with
        hres | ⟨hu, hr⟩
      · have hres1 : st1.hasReset = true := by rw [hres]; rfl
        have hmono := ih1 hres1
        refine ⟨fun _ => hmono, ?_, ?_,
          by show (chooseLoop env u ac cwp er fuel st1).2.2 + 1 ≤ fuel + 1; omega⟩
        · intro h; rw [hmono] at h; cases h
        · intro f hf
          refine ⟨?_, (ih3 f hf).2⟩
          intro h; rw [hmono] at h; cases h
      · refine ⟨?_, ?_, ?_,
          by show (chooseLoop env u ac cwp er fuel st1).2.2 + 1 ≤ fuel + 1; omega⟩
        · intro h
          exact ih1 (by rw [hr]; exact h)
        · intro h
          obtain ⟨h1, h2⟩ := ih2 h
          rw [hr] at h1
          rw [hu] at h2
          exact ⟨h1, h2⟩
        · intro f hf
          obtain ⟨ha, hb⟩ := ih3 f hf
          refine ⟨?_, hb⟩
          intro h
          have := ha h
          rw [hu] at this
          exact this

theorem spinModel_cases (env : SpinEnv) (st : SpinState) :
    ((spinModel env st).1 = .ignored ∧ (spinModel env st).2.1 = st ∧
      (spinModel env st).2.2 = false) ∨
    (∃ e usage dr, spinModel env st = (.errored e, spinErrorState st dr usage, dr)) ∨
    (∃ f : Found,
      ((spinChoose1 env st).1 = some f ∧
        spinModel env st = (.success f.selectedId f.providers,
          spinSuccessState st (spinChoose1 env st).2.1.hasReset f
            (spinChoose1 env st).2.1.usageQ,
          (spinChoose1 env st).2.1.hasReset)) ∨
      ((spinChoose1 env st).1 = none ∧ (spinChoose2 env st).1 = some f ∧
        spinModel env st = (.success f.selectedId f.providers,
          spinSuccessState st
            ((spinChoose1 env st).2.1.hasReset || (spinChoose2 env st).2.1.hasReset) f
            (spinChoose2 env st).2.1.usageQ,
          (spinChoose1 env st).2.1.hasReset || (spinChoose2 env st).2.1.hasReset))) := by
  unfold spinModel
  split
  · exact Or.inl ⟨rfl, rfl, rfl⟩
  · split
    · exact Or.inr (Or.inl ⟨servicesValidationError, st.providerUsage, false, rfl⟩)
    · split
      · exact Or.inr (Or.inl ⟨contentTypesValidationError, st.providerUsage, false, rfl⟩)
      · split
        · exact Or.inr (Or.inl
            ⟨noContentFromServicesError env.selectedServices, st.providerUsage, false, rfl⟩)
        · split
          · rename_i f hf
            exact Or.inr (Or.inr ⟨f, Or.inl ⟨hf, rfl⟩⟩)
          · rename_i hnone
            split
            · split
              · rename_i f hf
                exact Or.inr (Or.inr ⟨f, Or.inr ⟨hnone, hf, rfl⟩⟩)
              · exact Or.inr (Or.inl ⟨noMatchingTitleError, (spinChoose2 env st).2.1.usageQ,
                  (spinChoose1 env st).2.1.hasReset || (spinChoose2 env st).2.1.hasReset, rfl⟩)
            · exact Or.inr (Or.inl ⟨noMatchingTitleError, (spinChoose1 env st).2.1.usageQ,
                (spinChoose1 env st).2.1.hasReset, rfl⟩)

/-! ## C3 — no repeats unless a reset occurred -/

/-- C3: a spin that completes successfully returns a title whose identifier
was not in the served-set as of the start of the spin, unless a served-set
reset occurred during that same spin; and on success the identifier is
recorded into the served-set. -/
theorem C3_no_repeat_unless_reset (env : SpinEnv) (st : SpinState) (id : ℕ)
    (provs : List String) (h : (spinModel env st).1 = .success id provs) :
    ((spinModel env st).2.2 = false → id ∉ st.usedContentIds) ∧
    id ∈ (spinModel env st).2.1.usedContentIds := by
  rcases spinModel_cases env st with ⟨hout, -, -⟩ | ⟨e, usage, dr, heq⟩ | ⟨f, hcase⟩
  · rw [hout] at h; cases h
  · rw [heq] at h; cases h
  · rcases hcase with ⟨h1, heq⟩ | ⟨h1, h2, heq⟩
    · rw [heq] at h ⊢
      obtain ⟨hid, -⟩ := SpinOutcome.success.inj h
      subst hid
      constructor
      · intro hdr
        have hspec := chooseLoop_spec (chooseEnv1 env) st.providerUsage (spinAllContent env)
          (spinCwp env)
          ((!env.selectedRatings.isEmpty) && !(chooseEnv1 env).selectedRatings.isEmpty)
          16 ⟨st.usedContentIds, [], false, st.providerUsage⟩
        exact (hspec.2.2.1 f h1).1 hdr
      · exact List.mem_cons_self _ _
    · rw [heq] at h ⊢
      obtain ⟨hid, -⟩ := SpinOutcome.success.inj h
      subst hid
      constructor
      · intro hdr
        obtain ⟨hdr1, hdr2⟩ := Bool.or_eq_false_iff.mp hdr
        have hspec1 := chooseLoop_spec (chooseEnv1 env) st.providerUsage (spinAllContent env)
          (spinCwp env)
          ((!env.selectedRatings.isEmpty) && !(chooseEnv1 env).selectedRatings.isEmpty)
          16 ⟨st.usedContentIds, [], false, st.providerUsage⟩
        have hused1 : (spinChoose1 env st).2.1.usedIds = st.usedContentIds :=
          (hspec1.2.1 hdr1).2
        have hspec2 := chooseLoop_spec (chooseEnv2 env) st.providerUsage (spinAllContent env)
          (spinCwp env) (false && !(chooseEnv2 env).selectedRatings.isEmpty)
          16 ⟨(spinChoose1 env st).2.1.usedIds, [], false, (spinChoose1 env st).2.1.usageQ⟩
        have h3 : f.selectedId ∉ (spinChoose1 env st).2.1.usedIds :=
          (hspec2.2.2.1 f h2).1 hdr2
        rw [hused1] at h3
        exact h3
      · exact List.mem_cons_self _ _

/-- Witness for C3: the concrete demo spin succeeds with title 2, which was
not served before and is recorded afterwards. -/
theorem C3_no_repeat_unless_reset_witness :
    ((spinModel demoSpinEnv demoSpinState).2.2 = false →
      2 ∉ demoSpinState.usedContentIds) ∧
    2 ∈ (spinModel demoSpinEnv demoSpinState).2.1.usedContentIds :=
  C3_no_repeat_unless_reset demoSpinEnv demoSpinState 2 ["Netflix"] (by decide)

/-! ## C4 — bounded attempts, rating preference and relaxed retry -/

/-- C4: `chooseContent` executes at most 16 loop iterations; with the rating
constraint enforced it only ever accepts a candidate whose formatted rating
is one of the selected ratings; and when a maturity filter is active and
both the enforcing pass and the relaxed retry find nothing, the spin
resolves to the `NO_CONTENT` error with the spin budget restored. -/
theorem C4_rating_retry_policy :
    (∀ (env : ChooseEnv) (u : String → ℕ) (st0 : ChooseState) (ac : List Item)
        (cwp : List CWP) (opt : Bool),
      (chooseContent env u st0 ac cwp opt).2.2 ≤ 16) ∧
    (∀ (env : ChooseEnv) (u : String → ℕ) (st0 : ChooseState) (ac : List Item)
        (cwp : List CWP) (f : Found),
      env.selectedRatings ≠ [] →
      (chooseContent env u st0 ac cwp true).1 = some f →
      ∃ r, f.rating = some r ∧ r ∈ env.selectedRatings) ∧
    (∀ (env : SpinEnv) (st : SpinState),
      st.isSpinning = false → 0 < st.spinsRemaining →
      env.selectedServices ≠ [] → env.selectedContentTypes ≠ [] →
      spinAllContent env ≠ [] → env.selectedRatings ≠ [] →
      (spinChoose1 env st).1 = none → (spinChoose2 env st).1 = none →
      (spinModel env st).1 = .errored noMatchingTitleError ∧
      (spinModel env st).2.1.spinsRemaining = st.spinsRemaining) := by
  refine ⟨?_, ?_, ?_⟩
  · intro env u st0 ac cwp opt
    exact (chooseLoop_spec env u ac cwp (opt && !env.selectedRatings.isEmpty) 16 st0).2.2.2
  · intro env u st0 ac cwp f hne h
    have hfalse : env.selectedRatings.isEmpty = false := by
      cases henv : env.selectedRatings with
      | nil => exact absurd henv hne
      | cons a t => rfl
    have hspec := chooseLoop_spec env u ac cwp (true && !env.selectedRatings.isEmpty) 16 st0
    refine (hspec.2.2.1 f h).2 ?_
    rw [hfalse]
    rfl
  · intro env st h1 h2 h3 h4 h5 h6 h7 h8
    have hc1 : ¬(st.isSpinning = true ∨ st.spinsRemaining ≤ 0) := by
      rintro (hh | hh)
      · rw [h1] at hh; cases hh
      · omega
    have hc2 : ¬(env.selectedServices.isEmpty = true) := by
      cases hcase : env.selectedServices with
      | nil => exact absurd hcase h3
      | cons a t => simp
    have hc3 : ¬(env.selectedContentTypes.isEmpty = true) := by
      cases hcase : env.selectedContentTypes with
      | nil => exact absurd hcase h4
      | cons a t => simp
    have hc4 : ¬((spinAllContent env).isEmpty = true) := by
      cases hcase : spinAllContent env with
      | nil => exact absurd hcase h5
      | cons a t => simp
    have hc6 : (!env.selectedRatings.isEmpty) = true := by
      cases hcase : env.selectedRatings with
      | nil => exact absurd hcase h6
      | cons a t => rfl
    have hmodel : spinModel env st = (.errored noMatchingTitleError,
        spinErrorState st
          ((spinChoose1 env st).2.1.hasReset || (spinChoose2 env st).2.1.hasReset)
          (spinChoose2 env st).2.1.usageQ,
        (spinChoose1 env st).2.1.hasReset || (spinChoose2 env st).2.1.hasReset) := by
      unfold spinModel
      rw [if_neg hc1, if_neg hc2, if_neg hc3, if_neg hc4]
      simp only [h7, if_pos hc6, h8]
    rw [hmodel]
    refine ⟨rfl, ?_⟩
    show st.spinsRemaining - 1 + 1 = st.spinsRemaining
    omega

/-- Witness for C4 at concrete inputs: the attempt bound for the rated demo
environment, the rating guarantee for a one-record pool carrying a passing
`G` rating, and the `NO_CONTENT`-with-restored-budget outcome of the spin in
which every candidate is rejected. -/
theorem C4_rating_retry_policy_witness :
    (chooseContent ratedChooseEnv usageZero ⟨[], [], false, usageZero⟩ [itemB]
      [cwpRatedG] true).2.2 ≤ 16 ∧
    (∃ r, (Found.mk 2 .movie ["Netflix"] (some "G")).rating = some r ∧
      r ∈ ratedChooseEnv.selectedRatings) ∧
    ((spinModel ratedSpinEnv demoSpinState).1 = .errored noMatchingTitleError ∧
      (spinModel ratedSpinEnv demoSpinState).2.1.spinsRemaining =
        demoSpinState.spinsRemaining) :=
  ⟨C4_rating_retry_policy.1 ratedChooseEnv usageZero ⟨[], [], false, usageZero⟩ [itemB]
      [cwpRatedG] true,
   C4_rating_retry_policy.2.1 ratedChooseEnv usageZero ⟨[], [], false, usageZero⟩ [itemB]
      [cwpRatedG] ⟨2, .movie, ["Netflix"], some "G"⟩ (by decide) (by decide),
   C4_rating_retry_policy.2.2 ratedSpinEnv demoSpinState rfl (by decide) (by decide)
      (by decide) (by decide) (by decide) (by decide) (by decide)⟩

/-! ## C6 — caller-visible errors restore the spin budget -/

/-- C6: every spin ending in a caller-visible error leaves the spin budget
exactly as it was before the spin (the decrement taken at spin start is
restored) and returns the spinning flag to ready; in particular a spin
triggered with no selected services reports the validation error without
consuming a spin. -/
theorem C6_error_restores_budget :
    (∀ (env : SpinEnv) (st : SpinState) (e : AppError),
      (spinModel env st).1 = .errored e →
      (spinModel env st).2.1.spinsRemaining = st.spinsRemaining ∧
      (spinModel env st).2.1.isSpinning = false) ∧
    (∀ (env : SpinEnv) (st : SpinState),
      st.isSpinning = false → 0 < st.spinsRemaining → env.selectedServices = [] →
      (spinModel env st).1 = .errored servicesValidationError ∧
      (spinModel env st).2.1.spinsRemaining = st.spinsRemaining) := by
  constructor
  · intro env st e h
    rcases spinModel_cases env st with ⟨hout, -, -⟩ | ⟨e', u', dr, heq⟩ | ⟨f, hcase⟩
    · rw [hout] at h; cases h
    · rw [heq]
      constructor
      · show st.spinsRemaining - 1 + 1 = st.spinsRemaining
        omega
      · rfl
    · rcases hcase with ⟨h1, heq⟩ | ⟨h1, h2, heq⟩ <;> (rw [heq] at h; cases h)
  · intro env st hspin hbudget hserv
    have hc1 : ¬(st.isSpinning = true ∨ st.spinsRemaining ≤ 0) := by
      rintro (hh | hh)
      · rw [hspin] at hh; cases hh
      · omega
    have hc2 : env.selectedServices.isEmpty = true := by rw [hserv]; rfl
    have hmodel : spinModel env st =
        (.errored servicesValidationError, spinErrorState st false st.providerUsage,
          false) := by
      unfold spinModel
      rw [if_neg hc1, if_pos hc2]
    rw [hmodel]
    refine ⟨rfl, ?_⟩
    show st.spinsRemaining - 1 + 1 = st.spinsRemaining
    omega

/-- Witness for C6: the failing demo spin restores the budget, and a spin
with no services selected reports the validation error with the budget
unchanged. -/
theorem C6_error_restores_budget_witness :
    ((spinModel failSpinEnv demoSpinState).2.1.spinsRemaining =
        demoSpinState.spinsRemaining ∧
      (spinModel failSpinEnv demoSpinState).2.1.isSpinning = false) ∧
    ((spinModel noServicesSpinEnv demoSpinState).1 = .errored servicesValidationError ∧
      (spinModel noServicesSpinEnv demoSpinState).2.1.spinsRemaining =
        demoSpinState.spinsRemaining) :=
  ⟨C6_error_restores_budget.1 failSpinEnv demoSpinState
      (noContentFromServicesError ["Netflix"]) (by decide),
   C6_error_restores_budget.2 noServicesSpinEnv demoSpinState rfl (by decide) rfl⟩

/-! ## C5 — API_FAILURE policy of candidate discovery -/

theorem providerPagesLoop_all_fail (env : SpinEnv) (ctype : CType) (pid : ℕ)
    (hdisc : ∀ c p page srt, ∃ m, env.discover c p page srt = .error m) :
    ∀ (rem page count : ℕ) (acc : List Item),
      providerPagesLoop env ctype pid rem page count acc = acc := by
  intro rem
  induction rem with
  | zero => intro page count acc; rfl
  | succ rem ih =>
    intro page count acc
    unfold providerPagesLoop
    split
    · rfl
    · obtain ⟨m, hm⟩ := hdisc ctype pid page
        (sortMethods.getD (env.sortPick pid page % sortMethods.length) "popularity.desc")
      rw [hm]

theorem fetchContentFromAllProviders_all_fail (env : SpinEnv) (ctype : CType)
    (hdisc : ∀ c p page srt, ∃ m, env.discover c p page srt = .error m)
    (htr : ∀ c, ∃ m, env.trending c = .error m)
    (hsh : env.shuffleItems [] = []) :
    fetchContentFromAllProviders env ctype = [] := by
  have hbase : spinBasePool env ctype = [] := by
    unfold spinBasePool
    generalize env.shuffleIds (spinProviderIds env) = ids
    induction ids with
    | nil => rfl
    | cons p t ih =>
      rw [List.foldl_cons, providerPagesLoop_all_fail env ctype p hdisc]
      exact ih
  have htrend : spinTrendingAugmented env ctype = [] := by
    unfold spinTrendingAugmented
    obtain ⟨m, hm⟩ := htr ctype
    rw [hm, hbase]
  have hext : spinExtendedPool env ctype = [] := by
    unfold spinExtendedPool
    rw [hbase, htrend]
    simp only [List.length_nil]
    rw [if_pos (by norm_num)]
    split
    · generalize (env.shuffleIds (spinProviderIds env)).take 3 = ids
      induction ids with
      | nil => rfl
      | cons p t ih =>
        rw [List.foldl_cons]
        obtain ⟨m, hm⟩ := hdisc (altType ctype) p 1 "popularity.desc"
        rw [hm]
        exact ih
    · rfl
  unfold fetchContentFromAllProviders
  rw [hext, hsh]

/-- C5 counterexample: in the concrete spin environment where every
discovery call throws, all strategies return zero results with throws, yet
the spin resolves to a `NO_CONTENT` error, not `API_FAILURE`, because
`spinButton` calls `fetchContentFromAllProviders` (which recovers every
failure) rather than `fetchContentWithStrategies`. -/
theorem C5_all_throw_spin_counterexample :
    (∀ c p page srt, failSpinEnv.discover c p page srt = .error "TMDB down") ∧
    (∀ c, failSpinEnv.trending c = .error "TMDB down") ∧
    (spinModel failSpinEnv demoSpinState).1 =
      .errored (noContentFromServicesError ["Netflix"]) ∧
    (noContentFromServicesError ["Netflix"]).etype = .NO_CONTENT ∧
    ErrorType.NO_CONTENT ≠ ErrorType.API_FAILURE := by
  refine ⟨fun _ _ _ _ => rfl, fun _ => rfl, by decide, rfl, by decide⟩

/-- C5 amended: `fetchContentWithStrategies` signals `API_FAILURE` — with
the last underlying error message attached as detail — exactly when its
final pool is empty and at least one strategy failed, and an empty pool
with no errors is an ordinary result; but the spin pipeline uses
`fetchContentFromAllProviders`, which recovers every strategy failure, so a
spin whose discovery calls all return zero results with throws resolves to
`NO_CONTENT`, not `API_FAILURE`. -/
theorem C5_amended_api_failure_policy :
    (∀ (env : StrategyEnv) (ctype : CType) (pid : ℕ) (e : AppError),
      fetchContentWithStrategies env ctype pid = .error e ↔
        ((strategiesPool env ctype pid).1 = [] ∧
          ∃ msg, (strategiesPool env ctype pid).2 = some msg ∧ e = apiFailureError msg)) ∧
    (∀ (env : SpinEnv) (st : SpinState),
      st.isSpinning = false → 0 < st.spinsRemaining →
      env.selectedServices ≠ [] → env.selectedContentTypes ≠ [] →
      (∀ c p page srt, ∃ m, env.discover c p page srt = .error m) →
      (∀ c, ∃ m, env.trending c = .error m) →
      env.shuffleItems [] = [] →
      (spinModel env st).1 = .errored (noContentFromServicesError env.selectedServices)) := by
  constructor
  · intro env ctype pid e
    unfold fetchContentWithStrategies
    constructor
    · intro h
      split at h
      · rename_i msg hmsg
        split at h
        · rename_i hempty
          refine ⟨List.isEmpty_iff.mp hempty, msg, hmsg, ?_⟩
          exact (Except.error.inj h).symm
        · exact Except.noConfusion h
      · exact Except.noConfusion h
    · rintro ⟨hempty, msg, hmsg, rfl⟩
      simp only [hmsg]
      rw [if_pos (by rw [hempty]; rfl)]
  · intro env st h1 h2 h3 h4 hdisc htr hsh
    have hc1 : ¬(st.isSpinning = true ∨ st.spinsRemaining ≤ 0) := by
      rintro (hh | hh)
      · rw [h1] at hh; cases hh
      · omega
    have hc2 : ¬(env.selectedServices.isEmpty = true) := by
      cases hcase : env.selectedServices with
      | nil => exact absurd hcase h3
      | cons a t => simp
    have hc3 : ¬(env.selectedContentTypes.isEmpty = true) := by
      cases hcase : env.selectedContentTypes with
      | nil => exact absurd hcase h4
      | cons a t => simp
    have hfetch : spinAllContent env = [] :=
      fetchContentFromAllProviders_all_fail env (spinContentType env) hdisc htr hsh
    have hc4 : (spinAllContent env).isEmpty = true := by rw [hfetch]; rfl
    unfold spinModel
    rw [if_neg hc1, if_neg hc2, if_neg hc3, if_pos hc4]

/-- Witness for C5 amended at concrete inputs: the strategy engine with an
all-throwing provider raises `API_FAILURE` with the last error as detail,
and the all-throwing spin reports `NO_CONTENT`. -/
theorem C5_amended_api_failure_policy_witness :
    (fetchContentWithStrategies
        ⟨[.movie], fun _ _ _ => .error "boom", fun _ _ => .error "boom",
         fun _ _ => .error "boom", fun _ => .error "boom", fun _ => 0, fun l => l⟩
        .movie 8 = .error (apiFailureError "boom") ↔
      ((strategiesPool
          ⟨[.movie], fun _ _ _ => .error "boom", fun _ _ => .error "boom",
           fun _ _ => .error "boom", fun _ => .error "boom", fun _ => 0, fun l => l⟩
          .movie 8).1 = [] ∧
        ∃ msg, (strategiesPool
          ⟨[.movie], fun _ _ _ => .error "boom", fun _ _ => .error "boom",
           fun _ _ => .error "boom", fun _ => .error "boom", fun _ => 0, fun l => l⟩
          .movie 8).2 = some msg ∧ apiFailureError "boom" = apiFailureError msg)) ∧
    (spinModel failSpinEnv demoSpinState).1 =
      .errored (noContentFromServicesError failSpinEnv.selectedServices) :=
  ⟨C5_amended_api_failure_policy.1
      ⟨[.movie], fun _ _ _ => .error "boom", fun _ _ => .error "boom",
       fun _ _ => .error "boom", fun _ => .error "boom", fun _ => 0, fun l => l⟩
      .movie 8 (apiFailureError "boom"),
   C5_amended_api_failure_policy.2 failSpinEnv demoSpinState rfl (by decide) (by decide)
      (by decide) (fun _ _ _ _ => ⟨"TMDB down", rfl⟩) (fun _ => ⟨"TMDB down", rfl⟩) rfl⟩

/-! ## C8 — session-state changes of a successful spin -/

/-- C8 counterexample: the concrete demo spin succeeds with title 2, whose
primary matched service is Netflix, after first drawing and rejecting
title 1 (primary service Hulu, `formatContentItem` throws).  The Netflix
counter is NOT incremented (the final one-element pool takes the
single-item shortcut of `selectBalancedContent`), while the Hulu counter of
the rejected draw IS incremented. -/
theorem C8_usage_counter_counterexample :
    (spinModel demoSpinEnv demoSpinState).1 = .success 2 ["Netflix"] ∧
    cwpNetflix.actualProviders = ["Netflix"] ∧
    (spinModel demoSpinEnv demoSpinState).2.1.providerUsage "Netflix" =
      demoSpinState.providerUsage "Netflix" ∧
    (spinModel demoSpinEnv demoSpinState).2.1.providerUsage "Hulu" =
      demoSpinState.providerUsage "Hulu" + 1 := by
  decide

/-- C8 amended: on success the chosen Title's identifier is recorded into
the served-set (after a reset, into the emptied set); usage counters are
updated at draw time by the Balanced Selector — each draw from a pool of at
least two records increments exactly the drawn record's primary-service
counter (even when that draw is later rejected during the same spin), while
a draw from a single-record pool updates no counter. -/
theorem C8_amended_draw_time_usage_updates :
    (∀ (u0 uq : String → ℕ) (l : List CWP) (x : ℤ) (j : ℕ) (c : CWP) (u' : String → ℕ),
      2 ≤ l.length → selectBalancedContent u0 uq l x j = some (c, u') →
      u' (primaryProvider c) = uq (primaryProvider c) + 1 ∧
      ∀ p, p ≠ primaryProvider c → u' p = uq p) ∧
    (∀ (u0 uq : String → ℕ) (s : CWP) (x : ℤ) (j : ℕ),
      selectBalancedContent u0 uq [s] x j = some (s, uq)) ∧
    (∀ (env : SpinEnv) (st : SpinState) (id : ℕ) (provs : List String),
      (spinModel env st).1 = .success id provs →
      (spinModel env st).2.1.usedContentIds =
        id :: (if (spinModel env st).2.2 then [] else st.usedContentIds)) := by
  refine ⟨?_, ?_, ?_⟩
  · intro u0 uq l x j c u' hlen h
    have hu := selectBalancedContent_usage u0 uq l x j c u' hlen h
    subst hu
    exact ⟨bumpUsage_self uq (primaryProvider c),
      fun p hp => bumpUsage_other uq (primaryProvider c) p hp⟩
  · intro u0 uq s x j
    exact selectBalancedContent_single u0 uq s x j
  · intro env st id provs h
    rcases spinModel_cases env st with ⟨hout, -, -⟩ | ⟨e, usage, dr, heq⟩ | ⟨f, hcase⟩
    · rw [hout] at h; cases h
    · rw [heq] at h; cases h
    · rcases hcase with ⟨h1, heq⟩ | ⟨h1, h2, heq⟩ <;>
      · rw [heq] at h ⊢
        obtain ⟨hid, -⟩ := SpinOutcome.success.inj h
        subst hid
        rfl

/-- Witness for C8 amended: the two-record draw increments exactly the Hulu
counter, the singleton draw leaves the counters untouched, and the demo
spin records title 2 into the served-set. -/
theorem C8_amended_draw_time_usage_updates_witness :
    (bumpUsage usageZero "Hulu" (primaryProvider cwpHulu) =
        usageZero (primaryProvider cwpHulu) + 1 ∧
      bumpUsage usageZero "Hulu" "Netflix" = usageZero "Netflix") ∧
    selectBalancedContent usageZero usageZero [cwpNetflix] 7 0 =
      some (cwpNetflix, usageZero) ∧
    (spinModel demoSpinEnv demoSpinState).2.1.usedContentIds =
      2 :: (if (spinModel demoSpinEnv demoSpinState).2.2 then []
        else demoSpinState.usedContentIds) :=
  have h := C8_amended_draw_time_usage_updates.1 usageZero usageZero [cwpHulu, cwpNetflix]
    5 0 cwpHulu (bumpUsage usageZero "Hulu") (by decide) rfl
  ⟨⟨h.1, h.2 "Netflix" (by decide)⟩,
   C8_amended_draw_time_usage_updates.2.1 usageZero usageZero cwpNetflix 7 0,
   C8_amended_draw_time_usage_updates.2.2 demoSpinEnv demoSpinState 2 ["Netflix"]
     (by decide)⟩
